import Mathlib

/-!
# Verification of the ledger core of `minhas-financas-backend`

Shallow embedding of the transaction / transfer controllers
(`src/controllers/transaction.controller.ts`, `src/controllers/transfer.controller.ts`,
provided as `src/unnamed/part_005` and `src/unnamed/part_004`).

Modelling choices:
* JavaScript `Date` values are modelled by `SDate` (year, 0-based month, 1-based day)
  together with the rollover normalisation performed by `setDate` / `setMonth` /
  `setFullYear` (a day count exceeding the month length carries into following months).
* Monetary amounts are modelled by `ℚ` (the spec describes amounts as decimals and
  installment division as real-number division, which is exact on the inputs involved).
* Database ids (`cuid`/`uuid` strings) are modelled as naturals drawn from a counter
  `Store.nextId`; generating an id consumes a counter value, which models global
  uniqueness of freshly generated ids.
* Each Prisma query is translated to the corresponding list operation:
  `findFirst {id, userId}` becomes `List.find?`, `update where {id}` becomes a `List.map`
  that rewrites the matching row, `updateMany` / `deleteMany` become `List.map` /
  `List.filter` over the `where` condition, and `wallet.update {balance: {increment}}`
  becomes `incrementBalance`.
* Each controller early-`return res.status(4xx)` is an `Except.error`; the code performs
  no mutation before these returns and every mutating block runs inside
  `prisma.$transaction`, so an error leaves the store untouched.
-/

/-- Transaction direction (`type` column, enum `INCOME | EXPENSE`). -/
inductive TxType
  | INCOME
  | EXPENSE
deriving DecidableEq

/-- Recurrence kinds (`recurringType` column). -/
inductive RecurringType
  | WEEKLY
  | MONTHLY
  | YEARLY
  | INDEFINITE
deriving DecidableEq

/-- A calendar date in JavaScript `Date` style: `month` is 0-based (0 = January),
`day` is 1-based. -/
structure SDate where
  year : Int
  month : Nat
  day : Nat
deriving DecidableEq

/-- Gregorian leap-year rule (as implemented by JavaScript `Date`). -/
def isLeap (y : Int) : Bool :=
  (y % 4 == 0 && y % 100 != 0) || (y % 400 == 0)

/-- Number of days of 0-based month `m` in year `y`. -/
def daysInMonth (y : Int) (m : Nat) : Nat :=
  match m with
  | 0 => 31
  | 1 => if isLeap y then 29 else 28
  | 2 => 31
  | 3 => 30
  | 4 => 31
  | 5 => 30
  | 6 => 31
  | 7 => 31
  | 8 => 30
  | 9 => 31
  | 10 => 30
  | _ => 31

/-- Day-overflow normalisation of JavaScript `Date`: while the day count exceeds the
length of the current month, subtract that length and move to the next month.
The fuel argument (instantiated with the day count itself) makes the recursion
structural; every carry step removes at least 28 days, so the fuel never runs out
on inputs with `1 ≤ d`. -/
def normDayAux : Nat → Int → Nat → Nat → SDate
  | 0, y, m, d => ⟨y, m, d⟩
  | fuel + 1, y, m, d =>
    if d ≤ daysInMonth y m then ⟨y, m, d⟩
    else
      let y' := if m == 11 then y + 1 else y
      let m' := if m == 11 then 0 else m + 1
      normDayAux fuel y' m' (d - daysInMonth y m)

/-- Carry a possibly overflowing day count into a valid calendar date. -/
def normDay (y : Int) (m : Nat) (d : Nat) : SDate :=
  normDayAux d y m d

/-- JavaScript `date.setDate(date.getDate() + 7)`. -/
def SDate.addDays7 (dt : SDate) : SDate :=
  normDay dt.year dt.month (dt.day + 7)

/-- JavaScript `date.setMonth(date.getMonth() + 1)` (with day rollover, e.g.
Jan 31 + 1 month = Mar 3). -/
def SDate.addMonth (dt : SDate) : SDate :=
  let y := if dt.month == 11 then dt.year + 1 else dt.year
  let m := if dt.month == 11 then 0 else dt.month + 1
  normDay y m dt.day

/-- JavaScript `date.setFullYear(date.getFullYear() + 1)` (with day rollover, e.g.
Feb 29 + 1 year = Mar 1). -/
def SDate.addYear (dt : SDate) : SDate :=
  normDay (dt.year + 1) dt.month dt.day

/-- `getNextRecurringDate` (transaction controller): advances a date by the step of the
given recurrence kind; `INDEFINITE` uses the monthly step. -/
def getNextRecurringDate (currentDate : SDate) (recurringType : RecurringType) : SDate :=
  match recurringType with
  | .WEEKLY => currentDate.addDays7
  | .MONTHLY => currentDate.addMonth
  | .YEARLY => currentDate.addYear
  | .INDEFINITE => currentDate.addMonth

/-- The loop body of `generateRecurringDates`: push the current date, advance, repeat. -/
def generateRecurringDatesAux (currentDate : SDate) (recurringType : RecurringType) :
    Nat → List SDate
  | 0 => []
  | n + 1 =>
    currentDate :: generateRecurringDatesAux (getNextRecurringDate currentDate recurringType)
      recurringType n

/-- `generateRecurringDates`: 36 occurrences for every kind
(`maxOccurrences = recurringType === 'INDEFINITE' ? 36 : 36`). -/
def generateRecurringDates (startDate : SDate) (recurringType : RecurringType) : List SDate :=
  generateRecurringDatesAux startDate recurringType 36

/-- The loop body of `generateInstallmentDates`: push the current date, advance one
month, repeat. -/
def generateInstallmentDatesAux (currentDate : SDate) : Nat → List SDate
  | 0 => []
  | n + 1 => currentDate :: generateInstallmentDatesAux currentDate.addMonth n

/-- `generateInstallmentDates`: one date per installment, stepping by one month. -/
def generateInstallmentDates (startDate : SDate) (installments : Nat) : List SDate :=
  generateInstallmentDatesAux startDate installments

theorem generateRecurringDatesAux_eq_range_map (rt : RecurringType) :
    ∀ (n : Nat) (c : SDate),
      generateRecurringDatesAux c rt n =
        (List.range n).map fun i => (fun x => getNextRecurringDate x rt)^[i] c := by
  intro n
  induction n with
  | zero => intro c; simp [generateRecurringDatesAux]
  | succ m ih =>
    intro c
    rw [List.range_succ_eq_map]
    simp only [generateRecurringDatesAux, List.map_cons, Function.iterate_zero_apply,
      List.map_map, ih]
    refine congrArg (c :: ·) (List.map_congr_left ?_)
    intro i _
    simp [Function.comp, Function.iterate_succ_apply]

/-- The recurring date series is exactly the 36 iterates of the recurrence step. -/
theorem generateRecurringDates_eq_range_map (D : SDate) (rt : RecurringType) :
    generateRecurringDates D rt =
      (List.range 36).map fun i => (fun x => getNextRecurringDate x rt)^[i] D :=
  generateRecurringDatesAux_eq_range_map rt 36 D

theorem generateInstallmentDatesAux_eq_range_map :
    ∀ (n : Nat) (c : SDate),
      generateInstallmentDatesAux c n =
        (List.range n).map fun i => SDate.addMonth^[i] c := by
  intro n
  induction n with
  | zero => intro c; simp [generateInstallmentDatesAux]
  | succ m ih =>
    intro c
    rw [List.range_succ_eq_map]
    simp only [generateInstallmentDatesAux, List.map_cons, Function.iterate_zero_apply,
      List.map_map, ih]
    refine congrArg (c :: ·) (List.map_congr_left ?_)
    intro i _
    simp [Function.comp, Function.iterate_succ_apply]

/-- The installment date series is exactly the first `n` monthly iterates. -/
theorem generateInstallmentDates_eq_range_map (D : SDate) (n : Nat) :
    generateInstallmentDates D n = (List.range n).map fun i => SDate.addMonth^[i] D :=
  generateInstallmentDatesAux_eq_range_map n D

theorem generateRecurringDates_length (D : SDate) (rt : RecurringType) :
    (generateRecurringDates D rt).length = 36 := by
  rw [generateRecurringDates_eq_range_map]; simp

theorem generateInstallmentDates_length (D : SDate) (n : Nat) :
    (generateInstallmentDates D n).length = n := by
  rw [generateInstallmentDates_eq_range_map]; simp

/-- Wallet row (the fields the ledger core reads or writes). -/
structure Wallet where
  id : Nat
  userId : Nat
  balance : ℚ
deriving DecidableEq

/-- Category row (the fields the ledger core reads). -/
structure Category where
  id : Nat
  userId : Nat
  type : TxType
deriving DecidableEq

/-- Transaction (ledger entry) row, mirroring the Prisma model used by the
transaction controller. -/
structure Transaction where
  id : Nat
  description : String
  amount : ℚ
  type : TxType
  dueDate : SDate
  paymentDate : Option SDate
  isPaid : Bool
  isRecurring : Bool
  recurringType : Option RecurringType
  recurringGroupId : Option Nat
  isInstallment : Bool
  installments : Option Nat
  currentInstallment : Option Nat
  installmentGroupId : Option Nat
  notes : Option String
  userId : Nat
  walletId : Nat
  categoryId : Nat
deriving DecidableEq

/-- Transfer row. -/
structure Transfer where
  id : Nat
  amount : ℚ
  description : Option String
  date : SDate
  fromWalletId : Nat
  toWalletId : Nat
  userId : Nat
deriving DecidableEq

/-- The durable store the controllers mutate through Prisma.  `nextId` is the source of
freshly generated identifiers (uuid/cuid generation in the source). -/
structure Store where
  wallets : List Wallet
  categories : List Category
  transactions : List Transaction
  transfers : List Transfer
  nextId : Nat
deriving DecidableEq

/-- `prisma.wallet.findFirst({ where: { id, userId } })`. -/
def Wallet.findFirst (ws : List Wallet) (id userId : Nat) : Option Wallet :=
  ws.find? fun w => w.id == id && w.userId == userId

/-- `prisma.category.findFirst({ where: { id, userId } })`. -/
def Category.findFirst (cs : List Category) (id userId : Nat) : Option Category :=
  cs.find? fun c => c.id == id && c.userId == userId

/-- `prisma.transaction.findFirst({ where: { id, userId } })`. -/
def Transaction.findFirst (ts : List Transaction) (id userId : Nat) : Option Transaction :=
  ts.find? fun t => t.id == id && t.userId == userId

/-- `prisma.transfer.findFirst({ where: { id, userId } })`. -/
def Transfer.findFirst (ts : List Transfer) (id userId : Nat) : Option Transfer :=
  ts.find? fun t => t.id == id && t.userId == userId

/-- `prisma.wallet.update({ where: { id }, data: { balance: { increment } } })`. -/
def incrementBalance (ws : List Wallet) (id : Nat) (delta : ℚ) : List Wallet :=
  ws.map fun w => if w.id == id then { w with balance := w.balance + delta } else w

/-- The signed amount of an entry: `type === 'INCOME' ? amount : -amount`. -/
def signedAmount (ty : TxType) (amount : ℚ) : ℚ :=
  match ty with
  | .INCOME => amount
  | .EXPENSE => -amount

/-- One typed failure per distinct controller error return. -/
inductive ApiError
  | walletNotFound
  | categoryNotFound
  | typeMismatch
  | missingRecurringType
  | missingInstallments
  | recurringAndInstallment
  | transactionNotFound
  | walletOrCategoryNotFound
  | alreadyPaid
  | fromWalletNotFound
  | toWalletNotFound
  | insufficientBalance
  | sameWallet
  | transferNotFound
deriving DecidableEq

/-- The spec's error taxonomy (section 7) classifies pay-already-paid and
insufficient transfer balance as `Conflict`. -/
def ApiError.isConflict : ApiError → Bool
  | .alreadyPaid => true
  | .insufficientBalance => true
  | _ => false

/-- Parsed body of a create-transaction request (`createTransactionSchema`). -/
structure CreateTxInput where
  description : String
  amount : ℚ
  type : TxType
  dueDate : SDate
  paymentDate : Option SDate
  isPaid : Bool
  isRecurring : Bool
  recurringType : Option RecurringType
  isInstallment : Bool
  installments : Option Nat
  notes : Option String
  walletId : Nat
  categoryId : Nat
deriving DecidableEq

/-- Constraints `createTransactionSchema` already enforces before the controller body
runs: positive amount, positive installment count. -/
def CreateTxInput.Valid (d : CreateTxInput) : Prop :=
  0 < d.amount ∧ ∀ n, d.installments = some n → 0 < n

/-- One row of the recurring-creation loop in `createTransaction`. -/
def mkRecurringTx (userId : Nat) (d : CreateTxInput) (rt : RecurringType)
    (gid txId : Nat) (dueDate : SDate) : Transaction :=
  { id := txId
    description := d.description
    amount := d.amount
    type := d.type
    dueDate := dueDate
    paymentDate := none
    isPaid := false
    isRecurring := true
    recurringType := some rt
    recurringGroupId := some gid
    isInstallment := false
    installments := none
    currentInstallment := none
    installmentGroupId := none
    notes := d.notes
    userId := userId
    walletId := d.walletId
    categoryId := d.categoryId }

/-- The recurring-creation loop: one row per date, consuming consecutive fresh ids. -/
def createRecurringList (userId : Nat) (d : CreateTxInput) (rt : RecurringType)
    (gid : Nat) : Nat → List SDate → List Transaction
  | _, [] => []
  | nid, dd :: rest =>
    mkRecurringTx userId d rt gid nid dd :: createRecurringList userId d rt gid (nid + 1) rest

/-- One row of the installment-creation loop in `createTransaction`; `i` is the 0-based
loop index, so the stored position and description suffix use `i + 1`. -/
def mkInstallmentTx (userId : Nat) (d : CreateTxInput) (n : Nat) (gid txId : Nat)
    (i : Nat) (dueDate : SDate) : Transaction :=
  { id := txId
    description := d.description ++ " (" ++ Nat.repr (i + 1) ++ "/" ++ Nat.repr n ++ ")"
    amount := d.amount / (n : ℚ)
    type := d.type
    dueDate := dueDate
    paymentDate := none
    isPaid := false
    isRecurring := false
    recurringType := none
    recurringGroupId := none
    isInstallment := true
    installments := some n
    currentInstallment := some (i + 1)
    installmentGroupId := some gid
    notes := d.notes
    userId := userId
    walletId := d.walletId
    categoryId := d.categoryId }

/-- The installment-creation loop: one row per date, threading the fresh-id counter and
the 0-based loop index. -/
def createInstallmentList (userId : Nat) (d : CreateTxInput) (n : Nat) (gid : Nat) :
    Nat → Nat → List SDate → List Transaction
  | _, _, [] => []
  | nid, i, dd :: rest =>
    mkInstallmentTx userId d n gid nid i dd ::
      createInstallmentList userId d n gid (nid + 1) (i + 1) rest

/-- The singleton row created by the non-recurring, non-installment branch. -/
def mkSingleTx (userId : Nat) (d : CreateTxInput) (txId : Nat) : Transaction :=
  { id := txId
    description := d.description
    amount := d.amount
    type := d.type
    dueDate := d.dueDate
    paymentDate := d.paymentDate
    isPaid := d.isPaid
    isRecurring := false
    recurringType := none
    recurringGroupId := none
    isInstallment := false
    installments := none
    currentInstallment := none
    installmentGroupId := none
    notes := d.notes
    userId := userId
    walletId := d.walletId
    categoryId := d.categoryId }

/-- `createTransaction` (transaction controller).  Validation order follows the source:
wallet, category, type-vs-category, recurring-without-kind, installment-without-count,
both-flags.  The recurring and installment branches create the whole series unpaid and
never touch balances; the singleton branch honours `isPaid` and increments the wallet
balance by the signed amount when paid. -/
def createTransaction (userId : Nat) (d : CreateTxInput) (s : Store) :
    Except ApiError (Store × List Transaction) :=
  match Wallet.findFirst s.wallets d.walletId userId with
  | none => .error .walletNotFound
  | some _wallet =>
    match Category.findFirst s.categories d.categoryId userId with
    | none => .error .categoryNotFound
    | some category =>
      if d.type ≠ category.type then .error .typeMismatch
      else if d.isRecurring = true ∧ d.recurringType = none then .error .missingRecurringType
      else if d.isInstallment = true ∧ d.installments = none then .error .missingInstallments
      else if d.isRecurring = true ∧ d.isInstallment = true then .error .recurringAndInstallment
      else
        match d.isRecurring, d.recurringType with
        | true, some rt =>
          let gid := s.nextId
          let dates := generateRecurringDates d.dueDate rt
          let newTxs := createRecurringList userId d rt gid (s.nextId + 1) dates
          .ok ({ s with
                  transactions := s.transactions ++ newTxs
                  nextId := s.nextId + 1 + dates.length }, newTxs)
        | _, _ =>
          match d.isInstallment, d.installments with
          | true, some n =>
            let gid := s.nextId
            let dates := generateInstallmentDates d.dueDate n
            let newTxs := createInstallmentList userId d n gid (s.nextId + 1) 0 dates
            .ok ({ s with
                    transactions := s.transactions ++ newTxs
                    nextId := s.nextId + 1 + dates.length }, newTxs)
          | _, _ =>
            let t := mkSingleTx userId d s.nextId
            let ws :=
              if d.isPaid then
                incrementBalance s.wallets d.walletId (signedAmount d.type d.amount)
              else s.wallets
            .ok ({ s with
                    wallets := ws
                    transactions := s.transactions ++ [t]
                    nextId := s.nextId + 1 }, [t])

/-- Parsed body of an update-transaction request (`updateTransactionSchema`).
Plain `optional()` fields are `Option`; `optional().nullable()` fields are
`Option (Option _)` (absent vs explicit null vs value). -/
structure UpdateTxInput where
  description : Option String
  amount : Option ℚ
  dueDate : Option SDate
  paymentDate : Option (Option SDate)
  isPaid : Option Bool
  isRecurring : Option Bool
  recurringType : Option (Option RecurringType)
  isInstallment : Option Bool
  installments : Option (Option Nat)
  currentInstallment : Option (Option Nat)
  notes : Option (Option String)
  walletId : Option Nat
  categoryId : Option Nat
deriving DecidableEq

/-- Constraint `updateTransactionSchema` enforces: a supplied amount is positive (so the
JavaScript fallbacks `data.amount || current.amount` and `Option.getD` agree). -/
def UpdateTxInput.Valid (d : UpdateTxInput) : Prop :=
  ∀ a, d.amount = some a → 0 < a

/-- The empty update request (every field absent). -/
def UpdateTxInput.none_ : UpdateTxInput :=
  { description := none, amount := none, dueDate := none, paymentDate := none
    isPaid := none, isRecurring := none, recurringType := none, isInstallment := none
    installments := none, currentInstallment := none, notes := none
    walletId := none, categoryId := none }

/-- Applying the parsed partial `data` object to a row, as `prisma.transaction.update` /
`updateMany` do: each supplied field overwrites, absent fields are kept. -/
def applyUpdate (d : UpdateTxInput) (t : Transaction) : Transaction :=
  { t with
    description := d.description.getD t.description
    amount := d.amount.getD t.amount
    dueDate := d.dueDate.getD t.dueDate
    paymentDate := d.paymentDate.getD t.paymentDate
    isPaid := d.isPaid.getD t.isPaid
    isRecurring := d.isRecurring.getD t.isRecurring
    recurringType := d.recurringType.getD t.recurringType
    isInstallment := d.isInstallment.getD t.isInstallment
    installments := d.installments.getD t.installments
    currentInstallment := d.currentInstallment.getD t.currentInstallment
    notes := d.notes.getD t.notes
    walletId := d.walletId.getD t.walletId
    categoryId := d.categoryId.getD t.categoryId }

/-- The `whereCondition` built by `updateTransaction` / `deleteTransaction`: either the
single target row or a whole recurrence / installment group. -/
inductive WhereCond
  | byId
  | byRecurringGroup (gid : Nat)
  | byInstallmentGroup (gid : Nat)
deriving DecidableEq

/-- Group resolution shared by update and delete: with the group flag set, a
recurrence group takes precedence over an installment group; without a group the
condition stays by-id. -/
def resolveWhere (applyAll : Bool) (t : Transaction) : WhereCond :=
  if applyAll then
    match t.recurringGroupId with
    | some gid => .byRecurringGroup gid
    | none =>
      match t.installmentGroupId with
      | some gid => .byInstallmentGroup gid
      | none => .byId
  else .byId

/-- Row membership in the resolved `whereCondition` (always scoped by user id, as the
source keeps `userId` in the condition). -/
def matchesWhere (userId tid : Nat) (w : WhereCond) (t : Transaction) : Bool :=
  match w with
  | .byId => t.id == tid && t.userId == userId
  | .byRecurringGroup gid => t.recurringGroupId == some gid && t.userId == userId
  | .byInstallmentGroup gid => t.installmentGroupId == some gid && t.userId == userId

/-- `updateTransaction` (transaction controller).  When the request's `isPaid` differs
from the stored one, the balance adjustment uses `data.amount || current.amount` and
`data.walletId || current.walletId` (the *new* values when supplied) with the stored
direction; the old wallet is only reverted when it was paid and the wallet changes.
Then the row (or the whole group, when `updateAll`) receives the field updates. -/
def updateTransaction (userId tid : Nat) (updateAll : Bool) (d : UpdateTxInput)
    (s : Store) : Except ApiError (Store × List Transaction) :=
  match Transaction.findFirst s.transactions tid userId with
  | none => .error .transactionNotFound
  | some currentTransaction =>
    let walletOk :=
      match d.walletId with
      | none => true
      | some wid => (Wallet.findFirst s.wallets wid userId).isSome
    let categoryOk :=
      match d.categoryId with
      | none => true
      | some cid => (Category.findFirst s.categories cid userId).isSome
    if ¬(walletOk = true ∧ categoryOk = true) then .error .walletOrCategoryNotFound
    else
      let wc := resolveWhere updateAll currentTransaction
      let ws2 :=
        match d.isPaid with
        | none => s.wallets
        | some newPaid =>
          if newPaid = currentTransaction.isPaid then s.wallets
          else
            let amount := d.amount.getD currentTransaction.amount
            let walletId := d.walletId.getD currentTransaction.walletId
            let ty := currentTransaction.type
            let balanceChange := signedAmount ty amount
            let increment := if newPaid then balanceChange else -balanceChange
            let wsRev :=
              if currentTransaction.isPaid = true ∧ currentTransaction.walletId ≠ walletId
              then incrementBalance s.wallets currentTransaction.walletId
                (-(signedAmount ty currentTransaction.amount))
              else s.wallets
            incrementBalance wsRev walletId increment
      let newTxs :=
        match wc with
        | .byId => s.transactions.map fun t => if t.id == tid then applyUpdate d t else t
        | _ =>
          s.transactions.map fun t =>
            if matchesWhere userId tid wc t then applyUpdate d t else t
      .ok ({ s with wallets := ws2, transactions := newTxs },
        newTxs.filter (matchesWhere userId tid wc))

/-- The balance-reversal loop of `deleteTransaction`: for every row about to be deleted
that is paid, increment its wallet by `type === 'INCOME' ? -amount : amount`. -/
def revertPaidBalances (ws : List Wallet) (toDelete : List Transaction) : List Wallet :=
  toDelete.foldl
    (fun acc t =>
      if t.isPaid then incrementBalance acc t.walletId (-(signedAmount t.type t.amount))
      else acc)
    ws

/-- `deleteTransaction` (transaction controller).  With `deleteAll` and a group id the
whole group (scoped by user) is fetched, every paid member's contribution is reverted,
and all members are removed; otherwise only the target row. -/
def deleteTransaction (userId tid : Nat) (deleteAll : Bool) (s : Store) :
    Except ApiError Store :=
  match Transaction.findFirst s.transactions tid userId with
  | none => .error .transactionNotFound
  | some transaction =>
    let wc := resolveWhere deleteAll transaction
    let toDelete :=
      match wc with
      | .byId => [transaction]
      | _ => s.transactions.filter (matchesWhere userId tid wc)
    let ws := revertPaidBalances s.wallets toDelete
    let remaining :=
      match wc with
      | .byId => s.transactions.filter fun t => ¬t.id = tid
      | _ => s.transactions.filter fun t => ¬matchesWhere userId tid wc t = true
    .ok { s with wallets := ws, transactions := remaining }

/-- `payTransaction` (transaction controller): 404 when not found, `alreadyPaid` when
the row is paid; otherwise apply the signed contribution to the row's wallet and stamp
`isPaid` plus the supplied (or current-time) payment date. -/
def payTransaction (userId tid : Nat) (paymentDate : Option SDate) (now : SDate)
    (s : Store) : Except ApiError (Store × Transaction) :=
  match Transaction.findFirst s.transactions tid userId with
  | none => .error .transactionNotFound
  | some transaction =>
    if transaction.isPaid = true then .error .alreadyPaid
    else
      let balanceChange := signedAmount transaction.type transaction.amount
      let ws := incrementBalance s.wallets transaction.walletId balanceChange
      let stamp := fun (t : Transaction) =>
        { t with isPaid := true, paymentDate := some (paymentDate.getD now) }
      let newTxs := s.transactions.map fun t => if t.id == tid then stamp t else t
      .ok ({ s with wallets := ws, transactions := newTxs }, stamp transaction)

/-- Parsed body of a create-transfer request (`createTransferSchema`). -/
structure CreateTransferInput where
  amount : ℚ
  description : Option String
  date : Option SDate
  fromWalletId : Nat
  toWalletId : Nat
deriving DecidableEq

/-- Constraint `createTransferSchema` enforces: positive amount.  (The schema's refine
rule, source ≠ destination, is checked inside `createTransfer` below.) -/
def CreateTransferInput.Valid (d : CreateTransferInput) : Prop :=
  0 < d.amount

/-- `createTransfer` (transfer controller).  The zod refine rejects equal wallets;
then both wallets are looked up scoped by user; an amount above the source balance is
rejected before any mutation; otherwise debit source, credit destination, and append
the transfer record (with the supplied or current date). -/
def createTransfer (userId : Nat) (d : CreateTransferInput) (now : SDate) (s : Store) :
    Except ApiError (Store × Transfer) :=
  if d.fromWalletId = d.toWalletId then .error .sameWallet
  else
    match Wallet.findFirst s.wallets d.fromWalletId userId with
    | none => .error .fromWalletNotFound
    | some fromWallet =>
      match Wallet.findFirst s.wallets d.toWalletId userId with
      | none => .error .toWalletNotFound
      | some _toWallet =>
        if fromWallet.balance < d.amount then .error .insufficientBalance
        else
          let ws := incrementBalance s.wallets d.fromWalletId (-d.amount)
          let ws2 := incrementBalance ws d.toWalletId d.amount
          let tr : Transfer :=
            { id := s.nextId
              amount := d.amount
              description := d.description
              date := d.date.getD now
              fromWalletId := d.fromWalletId
              toWalletId := d.toWalletId
              userId := userId }
          .ok ({ s with
                  wallets := ws2
                  transfers := s.transfers ++ [tr]
                  nextId := s.nextId + 1 }, tr)

/-- `deleteTransfer` (transfer controller): add the amount back to the source wallet,
remove it from the destination, delete the record. -/
def deleteTransfer (userId tid : Nat) (s : Store) : Except ApiError Store :=
  match Transfer.findFirst s.transfers tid userId with
  | none => .error .transferNotFound
  | some transfer =>
    let ws := incrementBalance s.wallets transfer.fromWalletId transfer.amount
    let ws2 := incrementBalance ws transfer.toWalletId (-transfer.amount)
    .ok { s with
            wallets := ws2
            transfers := s.transfers.filter fun tr => ¬tr.id = tid }

/-- Shift every wallet's balance by a per-id delta.  Every wallet mutation the
controllers perform is of this shape. -/
def shiftBalances (ws : List Wallet) (D : Nat → ℚ) : List Wallet :=
  ws.map fun w => { w with balance := w.balance + D w.id }

/-- Signed contribution of an entry to the balance of wallet `i`
(the spec's "paid contribution": counts only while `isPaid`). -/
def contribution (i : Nat) (t : Transaction) : ℚ :=
  if t.walletId = i ∧ t.isPaid = true then signedAmount t.type t.amount else 0

/-- Sum of paid signed contributions of a list of entries to wallet `i`. -/
def paidSum (txs : List Transaction) (i : Nat) : ℚ :=
  (txs.map (contribution i)).sum

/-- Net effect of one transfer on the balance of wallet `i`. -/
def transferDelta (i : Nat) (tr : Transfer) : ℚ :=
  (if tr.toWalletId = i then tr.amount else 0) - (if tr.fromWalletId = i then tr.amount else 0)

/-- Net effect of a list of transfers on the balance of wallet `i`. -/
def transferNet (trs : List Transfer) (i : Nat) : ℚ :=
  (trs.map (transferDelta i)).sum

theorem shiftBalances_congr (ws : List Wallet) {D1 D2 : Nat → ℚ}
    (h : ∀ i, D1 i = D2 i) : shiftBalances ws D1 = shiftBalances ws D2 := by
  unfold shiftBalances
  exact List.map_congr_left fun w _ => by rw [h]

theorem shiftBalances_zero (ws : List Wallet) : shiftBalances ws (fun _ => 0) = ws := by
  unfold shiftBalances
  have : ∀ w : Wallet, ({ w with balance := w.balance + 0 } : Wallet) = w := by
    intro w; simp
  simp [this]

theorem shiftBalances_shiftBalances (ws : List Wallet) (D1 D2 : Nat → ℚ) :
    shiftBalances (shiftBalances ws D1) D2 = shiftBalances ws (fun i => D1 i + D2 i) := by
  unfold shiftBalances
  rw [List.map_map]
  exact List.map_congr_left fun w _ => by simp [add_assoc]

theorem incrementBalance_eq_shiftBalances (ws : List Wallet) (j : Nat) (δ : ℚ) :
    incrementBalance ws j δ = shiftBalances ws fun i => if i = j then δ else 0 := by
  unfold incrementBalance shiftBalances
  refine List.map_congr_left fun w _ => ?_
  by_cases h : w.id = j
  · simp [h]
  · simp [h]

theorem revertPaidBalances_eq_shiftBalances (L : List Transaction) :
    ∀ ws : List Wallet,
      revertPaidBalances ws L = shiftBalances ws fun i => -(paidSum L i) := by
  induction L with
  | nil =>
    intro ws
    have h0 : ∀ i : Nat, -(paidSum [] i) = (0 : ℚ) := by intro i; simp [paidSum]
    rw [revertPaidBalances, List.foldl_nil, shiftBalances_congr ws h0, shiftBalances_zero]
  | cons t L ih =>
    intro ws
    have hstep :
        (if t.isPaid then incrementBalance ws t.walletId (-(signedAmount t.type t.amount))
         else ws) = shiftBalances ws fun i => -(contribution i t) := by
      by_cases hp : t.isPaid
      · rw [if_pos hp, incrementBalance_eq_shiftBalances]
        refine shiftBalances_congr ws fun i => ?_
        by_cases hw : t.walletId = i
        · simp [contribution, hw, hp]
        · have : ¬i = t.walletId := fun h => hw h.symm
          simp [contribution, hw, this]
      · rw [if_neg hp]
        have h0 : ∀ i : Nat, (0 : ℚ) = -(contribution i t) := by
          intro i
          simp [contribution, hp]
        rw [shiftBalances_congr ws fun i => (h0 i).symm, shiftBalances_zero]
    have hfold :
        revertPaidBalances ws (t :: L) =
          revertPaidBalances
            (if t.isPaid then incrementBalance ws t.walletId (-(signedAmount t.type t.amount))
             else ws) L := by
      simp [revertPaidBalances]
    rw [hfold, hstep, ih, shiftBalances_shiftBalances]
    refine shiftBalances_congr ws fun i => ?_
    simp [paidSum]
    ring

theorem paidSum_append (l1 l2 : List Transaction) (i : Nat) :
    paidSum (l1 ++ l2) i = paidSum l1 i + paidSum l2 i := by
  simp [paidSum]

theorem paidSum_eq_zero_of_unpaid (L : List Transaction) (i : Nat)
    (h : ∀ t ∈ L, t.isPaid = false) : paidSum L i = 0 := by
  induction L with
  | nil => simp [paidSum]
  | cons t L ih =>
    have ht := h t (by simp)
    have hL := ih fun t' ht' => h t' (by simp [ht'])
    simp [paidSum, contribution, ht] at hL ⊢
    simpa [paidSum] using hL

theorem transferNet_append (l1 l2 : List Transfer) (i : Nat) :
    transferNet (l1 ++ l2) i = transferNet l1 i + transferNet l2 i := by
  simp [transferNet]

theorem filter_key_singleton {α : Type} (key : α → Nat) (k : Nat) :
    ∀ (l : List α) (a : α), (l.map key).Nodup → a ∈ l → key a = k →
      (l.filter fun x => key x == k) = [a] := by
  intro l
  induction l with
  | nil => intro a _ ha; cases ha
  | cons b l ih =>
    intro a hnd ha hk
    rw [List.map_cons, List.nodup_cons] at hnd
    rcases List.mem_cons.mp ha with rfl | hmem
    · have hnil : (l.filter fun x => key x == k) = [] := by
        refine List.filter_eq_nil_iff.mpr fun x hx => ?_
        simp only [beq_iff_eq]
        intro hxk
        exact hnd.1 (hk ▸ hxk ▸ List.mem_map_of_mem key hx)
      simp [List.filter_cons, hk, hnil]
    · have hbk : ¬key b = k := fun hbk => by
        exact hnd.1 (hbk ▸ hk ▸ List.mem_map_of_mem key hmem)
      simp only [List.filter_cons, beq_iff_eq, hbk, if_false]
      simpa [hbk] using ih a hnd.2 hmem hk

theorem paidSum_map_ite (tid : Nat) (f : Transaction → Transaction) (i : Nat) :
    ∀ L : List Transaction,
      paidSum (L.map fun t => if t.id == tid then f t else t) i =
        paidSum L i +
          ((L.filter fun t => t.id == tid).map fun t =>
            contribution i (f t) - contribution i t).sum := by
  intro L
  induction L with
  | nil => simp [paidSum]
  | cons t L ih =>
    by_cases h : t.id = tid
    · simp only [List.map_cons, List.filter_cons, h, beq_self_eq_true, if_true,
        List.map_cons, List.sum_cons, paidSum] at ih ⊢
      rw [ih]
      ring
    · have hb : (t.id == tid) = false := by simp [h]
      simp only [List.map_cons, List.filter_cons, hb, if_false, Bool.false_eq_true,
        List.sum_cons, paidSum] at ih ⊢
      rw [ih]
      ring

theorem filter_not_eq_filter_bnot {α : Type} (p : α → Bool) (L : List α) :
    (L.filter fun x => ¬p x = true) = L.filter fun x => !p x := by
  refine List.filter_congr fun x _ => ?_
  cases hpx : p x <;> simp

theorem sum_map_filter_not {α : Type} (p : α → Bool) (f : α → ℚ) :
    ∀ L : List α,
      ((L.filter fun x => ¬p x = true).map f).sum =
        (L.map f).sum - ((L.filter p).map f).sum := by
  intro L
  rw [filter_not_eq_filter_bnot]
  induction L with
  | nil => simp
  | cons t L ih =>
    cases hpt : p t <;>
      simp only [List.filter_cons, hpt, Bool.not_true, Bool.not_false, Bool.false_eq_true,
        if_false, if_true, List.map_cons, List.sum_cons] <;>
      rw [ih] <;> ring

theorem paidSum_filter_not (p : Transaction → Bool) (i : Nat) (L : List Transaction) :
    paidSum (L.filter fun t => ¬p t = true) i = paidSum L i - paidSum (L.filter p) i :=
  sum_map_filter_not p (contribution i) L

theorem transferNet_filter_not (p : Transfer → Bool) (i : Nat) (L : List Transfer) :
    transferNet (L.filter fun t => ¬p t = true) i =
      transferNet L i - transferNet (L.filter p) i :=
  sum_map_filter_not p (transferDelta i) L

theorem find?_append_right {α : Type} (p : α → Bool) (l1 l2 : List α)
    (h : ∀ a ∈ l1, ¬p a = true) : List.find? p (l1 ++ l2) = List.find? p l2 := by
  induction l1 with
  | nil => simp
  | cons b l1 ih =>
    have hb : p b = false := by
      cases hpb : p b
      · rfl
      · exact absurd hpb (h b (by simp))
    simp only [List.cons_append, List.find?_cons, hb]
    exact ih fun a ha => h a (by simp [ha])

theorem range_map_getD {α : Type} (dflt : α) :
    ∀ l : List α, (List.range l.length).map (fun k => l.getD k dflt) = l := by
  intro l
  induction l with
  | nil => simp
  | cons a l ih =>
    rw [List.length_cons, List.range_succ_eq_map]
    simp only [List.map_cons, List.getD_cons_zero, List.map_map]
    refine congrArg (a :: ·) ?_
    rw [show (fun k => List.getD (a :: l) k dflt) ∘ (· + 1) = fun k => l.getD k dflt from ?_, ih]
    funext k
    simp [Function.comp, List.getD_cons_succ]

theorem createRecurringList_eq (u : Nat) (d : CreateTxInput) (rt : RecurringType)
    (gid : Nat) :
    ∀ (dates : List SDate) (nid : Nat),
      createRecurringList u d rt gid nid dates =
        (List.range dates.length).map fun k =>
          mkRecurringTx u d rt gid (nid + k) (dates.getD k (SDate.mk 0 0 1)) := by
  intro dates
  induction dates with
  | nil => intro nid; simp [createRecurringList]
  | cons dd rest ih =>
    intro nid
    rw [List.length_cons, List.range_succ_eq_map]
    simp only [createRecurringList, List.map_cons, Nat.add_zero, List.getD_cons_zero,
      List.map_map, ih]
    refine congrArg (mkRecurringTx u d rt gid nid dd :: ·) (List.map_congr_left ?_)
    intro k _
    simp only [Function.comp, List.getD_cons_succ]
    have h1 : nid + (k + 1) = nid + 1 + k := by ring
    rw [h1]

theorem createInstallmentList_eq (u : Nat) (d : CreateTxInput) (n : Nat) (gid : Nat) :
    ∀ (dates : List SDate) (nid : Nat) (i0 : Nat),
      createInstallmentList u d n gid nid i0 dates =
        (List.range dates.length).map fun k =>
          mkInstallmentTx u d n gid (nid + k) (i0 + k) (dates.getD k (SDate.mk 0 0 1)) := by
  intro dates
  induction dates with
  | nil => intro nid i0; simp [createInstallmentList]
  | cons dd rest ih =>
    intro nid i0
    rw [List.length_cons, List.range_succ_eq_map]
    simp only [createInstallmentList, List.map_cons, Nat.add_zero, List.getD_cons_zero,
      List.map_map, ih]
    refine congrArg (mkInstallmentTx u d n gid nid i0 dd :: ·) (List.map_congr_left ?_)
    intro k _
    simp only [Function.comp, List.getD_cons_succ]
    have h1 : nid + (k + 1) = nid + 1 + k := by ring
    have h2 : i0 + (k + 1) = i0 + 1 + k := by ring
    rw [h1, h2]

theorem createTransaction_recurring_ok (u : Nat) (d : CreateTxInput) (s : Store)
    (w : Wallet) (c : Category) (rt : RecurringType)
    (hw : Wallet.findFirst s.wallets d.walletId u = some w)
    (hc : Category.findFirst s.categories d.categoryId u = some c)
    (hty : d.type = c.type)
    (hrec : d.isRecurring = true) (hrt : d.recurringType = some rt)
    (hni : d.isInstallment = false) :
    createTransaction u d s =
      .ok ({ s with
              transactions := s.transactions ++
                createRecurringList u d rt s.nextId (s.nextId + 1)
                  (generateRecurringDates d.dueDate rt)
              nextId := s.nextId + 1 + (generateRecurringDates d.dueDate rt).length },
           createRecurringList u d rt s.nextId (s.nextId + 1)
             (generateRecurringDates d.dueDate rt)) := by
  simp only [createTransaction, hw, hc]
  rw [if_neg (by simp [hty]), if_neg (by simp [hrt]), if_neg (by simp [hni]),
    if_neg (by simp [hni]), hrec, hrt]

theorem createTransaction_installment_ok (u : Nat) (d : CreateTxInput) (s : Store)
    (w : Wallet) (c : Category) (n : Nat)
    (hw : Wallet.findFirst s.wallets d.walletId u = some w)
    (hc : Category.findFirst s.categories d.categoryId u = some c)
    (hty : d.type = c.type)
    (hnr : d.isRecurring = false) (hinst : d.isInstallment = true)
    (hn : d.installments = some n) :
    createTransaction u d s =
      .ok ({ s with
              transactions := s.transactions ++
                createInstallmentList u d n s.nextId (s.nextId + 1) 0
                  (generateInstallmentDates d.dueDate n)
              nextId := s.nextId + 1 + (generateInstallmentDates d.dueDate n).length },
           createInstallmentList u d n s.nextId (s.nextId + 1) 0
             (generateInstallmentDates d.dueDate n)) := by
  simp only [createTransaction, hw, hc]
  rw [if_neg (by simp [hty]), if_neg (by simp [hnr]), if_neg (by simp [hn]),
    if_neg (by simp [hnr]), hnr, hinst, hn]

theorem createTransaction_single_ok (u : Nat) (d : CreateTxInput) (s : Store)
    (w : Wallet) (c : Category)
    (hw : Wallet.findFirst s.wallets d.walletId u = some w)
    (hc : Category.findFirst s.categories d.categoryId u = some c)
    (hty : d.type = c.type)
    (hnr : d.isRecurring = false) (hni : d.isInstallment = false) :
    createTransaction u d s =
      .ok ({ s with
              wallets :=
                if d.isPaid then
                  incrementBalance s.wallets d.walletId (signedAmount d.type d.amount)
                else s.wallets
              transactions := s.transactions ++ [mkSingleTx u d s.nextId]
              nextId := s.nextId + 1 },
           [mkSingleTx u d s.nextId]) := by
  simp only [createTransaction, hw, hc]
  rw [if_neg (by simp [hty]), if_neg (by simp [hnr]), if_neg (by simp [hni]),
    if_neg (by simp [hnr]), hnr, hni]

/-- **C1..C10 sample data.**  A user (id 7) owning one wallet (id 1, balance 0) and an
income and an expense category (ids 2 and 3); fresh ids start at 100. -/
def sampleWallet : Wallet := { id := 1, userId := 7, balance := 0 }

def sampleIncomeCat : Category := { id := 2, userId := 7, type := .INCOME }

def sampleExpenseCat : Category := { id := 3, userId := 7, type := .EXPENSE }

def sampleStore : Store :=
  { wallets := [sampleWallet]
    categories := [sampleIncomeCat, sampleExpenseCat]
    transactions := []
    transfers := []
    nextId := 100 }

def sampleRecurringInput : CreateTxInput :=
  { description := "rent"
    amount := 50
    type := .INCOME
    dueDate := SDate.mk 2025 0 15
    paymentDate := none
    isPaid := true
    isRecurring := true
    recurringType := some .MONTHLY
    isInstallment := false
    installments := none
    notes := none
    walletId := 1
    categoryId := 2 }

/-- **C2.**  For every start date and recurrence kind, a create request with
`isRecurring = true` produces exactly 36 entries, all sharing the one freshly generated
recurrence-group id (distinct from every existing group id), all with `isPaid = false`
regardless of the request's `isPaid`, and with due dates `D, step D, step² D, …,
step³⁵ D` where the step is 7 days for WEEKLY, one calendar month for MONTHLY and
INDEFINITE, and one calendar year for YEARLY. -/
theorem claim_C2_recurring_creation (u : Nat) (d : CreateTxInput) (s : Store)
    (rt : RecurringType)
    (hw : (Wallet.findFirst s.wallets d.walletId u).isSome = true)
    (hc : ∃ c, Category.findFirst s.categories d.categoryId u = some c ∧ d.type = c.type)
    (hrec : d.isRecurring = true) (hrt : d.recurringType = some rt)
    (hni : d.isInstallment = false)
    (hfresh : ∀ t ∈ s.transactions, ∀ g, t.recurringGroupId = some g → g < s.nextId) :
    ∃ out s', createTransaction u d s = .ok (s', out) ∧
      out.length = 36 ∧
      (∀ t ∈ out, t.recurringGroupId = some s.nextId ∧ t.isPaid = false) ∧
      out.map Transaction.dueDate =
        (List.range 36).map (fun i => (fun x => getNextRecurringDate x rt)^[i] d.dueDate) ∧
      ∀ t ∈ s.transactions, t.recurringGroupId ≠ some s.nextId := by
  obtain ⟨w, hw'⟩ := Option.isSome_iff_exists.mp hw
  obtain ⟨c, hc', hty⟩ := hc
  have hlen : (generateRecurringDates d.dueDate rt).length = 36 :=
    generateRecurringDates_length _ _
  refine ⟨_, _, createTransaction_recurring_ok u d s w c rt hw' hc' hty hrec hrt hni,
    ?_, ?_, ?_, ?_⟩
  · rw [createRecurringList_eq]
    simp [hlen]
  · intro t ht
    rw [createRecurringList_eq] at ht
    obtain ⟨k, _, rfl⟩ := List.mem_map.mp ht
    exact ⟨rfl, rfl⟩
  · rw [createRecurringList_eq, List.map_map]
    have hcomp :
        (Transaction.dueDate ∘ fun k =>
          mkRecurringTx u d rt s.nextId (s.nextId + 1 + k)
            ((generateRecurringDates d.dueDate rt).getD k (SDate.mk 0 0 1))) =
          fun k => (generateRecurringDates d.dueDate rt).getD k (SDate.mk 0 0 1) := by
      funext k
      rfl
    rw [hcomp, range_map_getD, generateRecurringDates_eq_range_map]
  · intro t ht h
    exact absurd (hfresh t ht s.nextId h) (lt_irrefl _)

/-- Witness for C2: a concrete MONTHLY create request (submitted with `isPaid = true`)
against the sample store. -/
theorem claim_C2_recurring_creation_witness :
    ∃ out s', createTransaction 7 sampleRecurringInput sampleStore = .ok (s', out) ∧
      out.length = 36 ∧
      (∀ t ∈ out, t.recurringGroupId = some sampleStore.nextId ∧ t.isPaid = false) ∧
      out.map Transaction.dueDate =
        (List.range 36).map
          (fun i => (fun x => getNextRecurringDate x RecurringType.MONTHLY)^[i]
            sampleRecurringInput.dueDate) ∧
      ∀ t ∈ sampleStore.transactions, t.recurringGroupId ≠ some sampleStore.nextId :=
  claim_C2_recurring_creation 7 sampleRecurringInput sampleStore .MONTHLY (by decide)
    ⟨sampleIncomeCat, by decide, rfl⟩ rfl rfl rfl (by simp [sampleStore])

def sampleInstallmentInput : CreateTxInput :=
  { description := "tv"
    amount := 300
    type := .EXPENSE
    dueDate := SDate.mk 2025 0 31
    paymentDate := none
    isPaid := true
    isRecurring := false
    recurringType := none
    isInstallment := true
    installments := some 3
    notes := none
    walletId := 1
    categoryId := 3 }

/-- **C3.**  For every start date, installment count `n ≥ 1` and total amount, a create
request with `isInstallment = true` produces exactly `n` entries, each of amount
`amount / n` (exact division), due dates `D, D+1mo, …, D+(n-1)mo`, descriptions suffixed
with `" (i/n)"` for 1-based position `i`, sharing the one freshly generated
installment-group id, carrying position `i` and total `n`, all unpaid. -/
theorem claim_C3_installment_creation (u : Nat) (d : CreateTxInput) (s : Store) (n : Nat)
    (hw : (Wallet.findFirst s.wallets d.walletId u).isSome = true)
    (hc : ∃ c, Category.findFirst s.categories d.categoryId u = some c ∧ d.type = c.type)
    (hpos : 0 < n)
    (hnr : d.isRecurring = false) (hinst : d.isInstallment = true)
    (hn : d.installments = some n)
    (hfresh : ∀ t ∈ s.transactions, ∀ g, t.installmentGroupId = some g → g < s.nextId) :
    ∃ out s', createTransaction u d s = .ok (s', out) ∧
      out.length = n ∧
      (∀ t ∈ out, t.installmentGroupId = some s.nextId ∧ t.isPaid = false ∧
        t.amount = d.amount / (n : ℚ) ∧ t.installments = some n) ∧
      out.map Transaction.dueDate =
        (List.range n).map (fun i => SDate.addMonth^[i] d.dueDate) ∧
      out.map Transaction.description =
        (List.range n).map (fun i =>
          d.description ++ " (" ++ Nat.repr (i + 1) ++ "/" ++ Nat.repr n ++ ")") ∧
      out.map Transaction.currentInstallment =
        (List.range n).map (fun i => some (i + 1)) ∧
      ∀ t ∈ s.transactions, t.installmentGroupId ≠ some s.nextId := by
  obtain ⟨w, hw'⟩ := Option.isSome_iff_exists.mp hw
  obtain ⟨c, hc', hty⟩ := hc
  have hlen : (generateInstallmentDates d.dueDate n).length = n :=
    generateInstallmentDates_length _ _
  refine ⟨_, _, createTransaction_installment_ok u d s w c n hw' hc' hty hnr hinst hn,
    ?_, ?_, ?_, ?_, ?_, ?_⟩
  · rw [createInstallmentList_eq]
    simp [hlen]
  · intro t ht
    rw [createInstallmentList_eq] at ht
    obtain ⟨k, _, rfl⟩ := List.mem_map.mp ht
    exact ⟨rfl, rfl, rfl, rfl⟩
  · rw [createInstallmentList_eq, List.map_map]
    have hcomp :
        (Transaction.dueDate ∘ fun k =>
          mkInstallmentTx u d n s.nextId (s.nextId + 1 + k) (0 + k)
            ((generateInstallmentDates d.dueDate n).getD k (SDate.mk 0 0 1))) =
          fun k => (generateInstallmentDates d.dueDate n).getD k (SDate.mk 0 0 1) := by
      funext k
      rfl
    rw [hcomp, range_map_getD, generateInstallmentDates_eq_range_map]
  · rw [createInstallmentList_eq, List.map_map, hlen]
    refine List.map_congr_left fun k _ => ?_
    simp only [Function.comp, mkInstallmentTx, Nat.zero_add]
  · rw [createInstallmentList_eq, List.map_map, hlen]
    refine List.map_congr_left fun k _ => ?_
    simp only [Function.comp, mkInstallmentTx, Nat.zero_add]
  · intro t ht h
    exact absurd (hfresh t ht s.nextId h) (lt_irrefl _)

/-- Witness for C3: 3 installments of total 300 (the spec's own example) against the
sample store. -/
theorem claim_C3_installment_creation_witness :
    ∃ out s', createTransaction 7 sampleInstallmentInput sampleStore = .ok (s', out) ∧
      out.length = 3 ∧
      (∀ t ∈ out, t.installmentGroupId = some sampleStore.nextId ∧ t.isPaid = false ∧
        t.amount = sampleInstallmentInput.amount / (3 : ℚ) ∧ t.installments = some 3) ∧
      out.map Transaction.dueDate =
        (List.range 3).map (fun i => SDate.addMonth^[i] sampleInstallmentInput.dueDate) ∧
      out.map Transaction.description =
        (List.range 3).map (fun i =>
          sampleInstallmentInput.description ++ " (" ++ Nat.repr (i + 1) ++ "/" ++
            Nat.repr 3 ++ ")") ∧
      out.map Transaction.currentInstallment =
        (List.range 3).map (fun i => some (i + 1)) ∧
      ∀ t ∈ sampleStore.transactions, t.installmentGroupId ≠ some sampleStore.nextId :=
  claim_C3_installment_creation 7 sampleInstallmentInput sampleStore 3 (by decide)
    ⟨sampleExpenseCat, by decide, rfl⟩ (by decide) rfl rfl rfl (by simp [sampleStore])

def samplePaidTx : Transaction :=
  { id := 10
    description := "salary"
    amount := 100
    type := .INCOME
    dueDate := SDate.mk 2025 0 1
    paymentDate := some (SDate.mk 2025 0 2)
    isPaid := true
    isRecurring := false
    recurringType := none
    recurringGroupId := none
    isInstallment := false
    installments := none
    currentInstallment := none
    installmentGroupId := none
    notes := none
    userId := 7
    walletId := 1
    categoryId := 2 }

def samplePaidStore : Store :=
  { sampleStore with
      wallets := [{ sampleWallet with balance := 100 }]
      transactions := [samplePaidTx] }

/-- **C6.**  Paying an entry whose `isPaid` flag is already true fails with the
Conflict-class error `alreadyPaid`, and no post-state is produced (the controller
returns before the `prisma.$transaction` block, so nothing — balances, `paymentDate`,
any entry field — is mutated). -/
theorem claim_C6_pay_already_paid (u tid : Nat) (pd : Option SDate) (now : SDate)
    (s : Store) (t : Transaction)
    (hfind : Transaction.findFirst s.transactions tid u = some t)
    (hpaid : t.isPaid = true) :
    payTransaction u tid pd now s = .error .alreadyPaid ∧
      ApiError.isConflict .alreadyPaid = true ∧
      ∀ s' r, payTransaction u tid pd now s ≠ .ok (s', r) := by
  have h : payTransaction u tid pd now s = .error .alreadyPaid := by
    simp only [payTransaction, hfind, hpaid, if_true]
  exact ⟨h, rfl, fun s' r hk => by rw [h] at hk; cases hk⟩

/-- Witness for C6: paying the already-paid sample entry. -/
theorem claim_C6_pay_already_paid_witness :
    payTransaction 7 10 none (SDate.mk 2025 5 1) samplePaidStore = .error .alreadyPaid ∧
      ApiError.isConflict .alreadyPaid = true ∧
      ∀ s' r, payTransaction 7 10 none (SDate.mk 2025 5 1) samplePaidStore ≠ .ok (s', r) :=
  claim_C6_pay_already_paid 7 10 none (SDate.mk 2025 5 1) samplePaidStore samplePaidTx
    rfl rfl

/-- **C7.**  A transfer-creation request whose amount exceeds the source wallet's
balance fails with the Conflict-class error `insufficientBalance` before any mutation,
so no post-state (no balance change, no transfer record) is produced. -/
theorem claim_C7_transfer_insufficient_balance (u : Nat) (d : CreateTransferInput)
    (now : SDate) (s : Store) (fw tw : Wallet)
    (hne : ¬d.fromWalletId = d.toWalletId)
    (hfw : Wallet.findFirst s.wallets d.fromWalletId u = some fw)
    (htw : Wallet.findFirst s.wallets d.toWalletId u = some tw)
    (hlt : fw.balance < d.amount) :
    createTransfer u d now s = .error .insufficientBalance ∧
      ApiError.isConflict .insufficientBalance = true ∧
      ∀ s' r, createTransfer u d now s ≠ .ok (s', r) := by
  have h : createTransfer u d now s = .error .insufficientBalance := by
    simp only [createTransfer, if_neg hne, hfw, htw, if_pos hlt]
  exact ⟨h, rfl, fun s' r hk => by rw [h] at hk; cases hk⟩

def sampleTransferStore : Store :=
  { sampleStore with
      wallets := [{ sampleWallet with balance := 40 }, { id := 4, userId := 7, balance := 0 }] }

def sampleTransferInput : CreateTransferInput :=
  { amount := 50
    description := none
    date := none
    fromWalletId := 1
    toWalletId := 4 }

/-- Witness for C7: transferring 50 out of a wallet holding 40 (the spec's example). -/
theorem claim_C7_transfer_insufficient_balance_witness :
    createTransfer 7 sampleTransferInput (SDate.mk 2025 5 1) sampleTransferStore =
        .error .insufficientBalance ∧
      ApiError.isConflict .insufficientBalance = true ∧
      ∀ s' r,
        createTransfer 7 sampleTransferInput (SDate.mk 2025 5 1) sampleTransferStore ≠
          .ok (s', r) :=
  claim_C7_transfer_insufficient_balance 7 sampleTransferInput (SDate.mk 2025 5 1)
    sampleTransferStore { sampleWallet with balance := 40 }
    { id := 4, userId := 7, balance := 0 } (by decide) rfl rfl (by norm_num [sampleTransferInput])

/-- The rows written by `updateTransaction` after the balance step: the single target
row, or every row of the resolved group. -/
def updateRows (u tid : Nat) (wc : WhereCond) (d : UpdateTxInput)
    (txs : List Transaction) : List Transaction :=
  match wc with
  | .byId => txs.map fun t => if t.id == tid then applyUpdate d t else t
  | _ => txs.map fun t => if matchesWhere u tid wc t then applyUpdate d t else t

theorem updateTransaction_paidChange_ok (u tid : Nat) (all : Bool) (d : UpdateTxInput)
    (s : Store) (cur : Transaction) (p : Bool)
    (hfind : Transaction.findFirst s.transactions tid u = some cur)
    (hwok : ∀ wid, d.walletId = some wid → (Wallet.findFirst s.wallets wid u).isSome = true)
    (hcok : ∀ cid, d.categoryId = some cid →
      (Category.findFirst s.categories cid u).isSome = true)
    (hp : d.isPaid = some p) (hne : ¬p = cur.isPaid) :
    updateTransaction u tid all d s =
      .ok ({ s with
              wallets :=
                incrementBalance
                  (if cur.isPaid = true ∧ cur.walletId ≠ d.walletId.getD cur.walletId then
                    incrementBalance s.wallets cur.walletId
                      (-(signedAmount cur.type cur.amount))
                  else s.wallets)
                  (d.walletId.getD cur.walletId)
                  (if p then signedAmount cur.type (d.amount.getD cur.amount)
                  else -(signedAmount cur.type (d.amount.getD cur.amount)))
              transactions := updateRows u tid (resolveWhere all cur) d s.transactions },
           (updateRows u tid (resolveWhere all cur) d s.transactions).filter
             (matchesWhere u tid (resolveWhere all cur))) := by
  have hwOk :
      (match d.walletId with
        | none => true
        | some wid => (Wallet.findFirst s.wallets wid u).isSome) = true := by
    cases hdw : d.walletId with
    | none => rfl
    | some wid => exact hwok wid hdw
  have hcOk :
      (match d.categoryId with
        | none => true
        | some cid => (Category.findFirst s.categories cid u).isSome) = true := by
    cases hdc : d.categoryId with
    | none => rfl
    | some cid => exact hcok cid hdc
  simp only [updateTransaction, hfind, hwOk, hcOk, hp, updateRows]
  rw [if_neg (by simp), if_neg hne]

theorem updateTransaction_noPaidChange_ok (u tid : Nat) (all : Bool) (d : UpdateTxInput)
    (s : Store) (cur : Transaction)
    (hfind : Transaction.findFirst s.transactions tid u = some cur)
    (hwok : ∀ wid, d.walletId = some wid → (Wallet.findFirst s.wallets wid u).isSome = true)
    (hcok : ∀ cid, d.categoryId = some cid →
      (Category.findFirst s.categories cid u).isSome = true)
    (hp : d.isPaid = none) :
    updateTransaction u tid all d s =
      .ok ({ s with transactions := updateRows u tid (resolveWhere all cur) d s.transactions },
           (updateRows u tid (resolveWhere all cur) d s.transactions).filter
             (matchesWhere u tid (resolveWhere all cur))) := by
  have hwOk :
      (match d.walletId with
        | none => true
        | some wid => (Wallet.findFirst s.wallets wid u).isSome) = true := by
    cases hdw : d.walletId with
    | none => rfl
    | some wid => exact hwok wid hdw
  have hcOk :
      (match d.categoryId with
        | none => true
        | some cid => (Category.findFirst s.categories cid u).isSome) = true := by
    cases hdc : d.categoryId with
    | none => rfl
    | some cid => exact hcok cid hdc
  simp only [updateTransaction, hfind, hwOk, hcOk, hp, updateRows]
  rw [if_neg (by simp)]

def storeC4 : Store :=
  { sampleStore with
      wallets := [{ id := 1, userId := 7, balance := 100 },
                  { id := 4, userId := 7, balance := 0 }]
      transactions := [samplePaidTx] }

def inputC4 : UpdateTxInput :=
  { UpdateTxInput.none_ with walletId := some 4, isPaid := some false }

/-- **C4 (counterexample).**  Entry 10 is paid (INCOME 100 on wallet 1, balance 100);
the update moves it to wallet 4 and flips the paid flag.  The claim predicts that
wallet 4 receives the entry's new signed contribution (+100); the code instead applies
`increment = isPaid ? change : -change = -100`, so wallet 4 ends at -100, not +100. -/
theorem claim_C4_counterexample :
    ∃ s' out, updateTransaction 7 10 false inputC4 storeC4 = .ok (s', out) ∧
      s'.wallets = [{ id := 1, userId := 7, balance := 0 },
                    { id := 4, userId := 7, balance := -100 }] ∧
      ¬s'.wallets = [{ id := 1, userId := 7, balance := 0 },
                     { id := 4, userId := 7, balance := 100 }] := by
  refine ⟨_, _,
    updateTransaction_paidChange_ok 7 10 false inputC4 storeC4 samplePaidTx false rfl
      (by intro wid h; simp only [inputC4] at h; injection h with h'; subst h'; decide)
      (by intro cid h; simp only [inputC4, UpdateTxInput.none_] at h; cases h)
      rfl (by decide), ?_, ?_⟩
  · show incrementBalance _ _ _ = _
    norm_num [samplePaidTx, inputC4, UpdateTxInput.none_, storeC4, sampleStore,
      incrementBalance, signedAmount]
  · show ¬incrementBalance _ _ _ = _
    norm_num [samplePaidTx, inputC4, UpdateTxInput.none_, storeC4, sampleStore,
      incrementBalance, signedAmount]

/-- **C4 (amended).**  For a currently-paid entry, an update that changes the wallet
and the paid flag (necessarily paid → unpaid) reverses the old signed contribution
(old amount, old direction) against the old wallet and applies the *negation* of the
new signed contribution (request amount if supplied, else old; old direction) against
the new wallet; no other wallet balance is affected. -/
theorem claim_C4_amended_wallet_and_paid_change (u tid : Nat) (all : Bool)
    (d : UpdateTxInput) (s : Store) (cur : Transaction) (wid : Nat)
    (hfind : Transaction.findFirst s.transactions tid u = some cur)
    (hpaid : cur.isPaid = true)
    (hw : d.walletId = some wid) (hwne : ¬cur.walletId = wid)
    (hp : d.isPaid = some false)
    (hwok : (Wallet.findFirst s.wallets wid u).isSome = true)
    (hcok : ∀ cid, d.categoryId = some cid →
      (Category.findFirst s.categories cid u).isSome = true) :
    ∃ s' out, updateTransaction u tid all d s = .ok (s', out) ∧
      s'.wallets =
        shiftBalances s.wallets fun i =>
          (if i = cur.walletId then -(signedAmount cur.type cur.amount) else 0) +
          (if i = wid then -(signedAmount cur.type (d.amount.getD cur.amount)) else 0) := by
  have hne : ¬false = cur.isPaid := by rw [hpaid]; exact Bool.false_ne_true
  refine ⟨_, _,
    updateTransaction_paidChange_ok u tid all d s cur false hfind
      (fun w hw' => by rw [hw] at hw'; injection hw' with h'; subst h'; exact hwok)
      hcok hp hne, ?_⟩
  show incrementBalance _ _ _ = _
  rw [hw]
  simp only [Option.getD_some]
  rw [if_pos ⟨hpaid, hwne⟩, if_neg (by simp)]
  rw [incrementBalance_eq_shiftBalances, incrementBalance_eq_shiftBalances,
    shiftBalances_shiftBalances]

def storeC4w : Store :=
  { sampleStore with
      wallets := [{ id := 1, userId := 7, balance := 100 },
                  { id := 4, userId := 7, balance := 0 }]
      transactions := [samplePaidTx] }

/-- Witness for the amended C4 at the counterexample's concrete input. -/
theorem claim_C4_amended_wallet_and_paid_change_witness :
    ∃ s' out, updateTransaction 7 10 false inputC4 storeC4w = .ok (s', out) ∧
      s'.wallets =
        shiftBalances storeC4w.wallets fun i =>
          (if i = samplePaidTx.walletId
           then -(signedAmount samplePaidTx.type samplePaidTx.amount) else 0) +
          (if i = 4
           then -(signedAmount samplePaidTx.type
             (inputC4.amount.getD samplePaidTx.amount)) else 0) :=
  claim_C4_amended_wallet_and_paid_change 7 10 false inputC4 storeC4w samplePaidTx 4
    rfl rfl rfl (by decide) rfl (by decide)
    (by intro cid h; simp only [inputC4, UpdateTxInput.none_] at h; cases h)

/-- **C5 (amended).**  When an update's `isPaid` differs from the stored flag, the
balance adjustment is applied to the request's replacement wallet when supplied
(falling back to the pre-update wallet) with magnitude taken from the request's
replacement amount when supplied (falling back to the pre-update amount); only the
direction always comes from the pre-update entry.  The old wallet is reverted (using
the pre-update amount) only when the entry was paid and the wallet actually changes. -/
theorem claim_C5_amended_reconciler_uses_request_values (u tid : Nat) (all : Bool)
    (d : UpdateTxInput) (s : Store) (cur : Transaction) (p : Bool)
    (hfind : Transaction.findFirst s.transactions tid u = some cur)
    (hp : d.isPaid = some p) (hne : ¬p = cur.isPaid)
    (hwok : ∀ wid, d.walletId = some wid → (Wallet.findFirst s.wallets wid u).isSome = true)
    (hcok : ∀ cid, d.categoryId = some cid →
      (Category.findFirst s.categories cid u).isSome = true) :
    ∃ s' out, updateTransaction u tid all d s = .ok (s', out) ∧
      s'.wallets =
        shiftBalances s.wallets fun i =>
          (if cur.isPaid = true ∧ ¬cur.walletId = d.walletId.getD cur.walletId ∧
              i = cur.walletId
            then -(signedAmount cur.type cur.amount) else 0) +
          (if i = d.walletId.getD cur.walletId
            then
              (if p then signedAmount cur.type (d.amount.getD cur.amount)
              else -(signedAmount cur.type (d.amount.getD cur.amount)))
            else 0) := by
  refine ⟨_, _,
    updateTransaction_paidChange_ok u tid all d s cur p hfind hwok hcok hp hne, ?_⟩
  show incrementBalance _ _ _ = _
  by_cases hrev : cur.isPaid = true ∧ cur.walletId ≠ d.walletId.getD cur.walletId
  · rw [if_pos hrev, incrementBalance_eq_shiftBalances, incrementBalance_eq_shiftBalances,
      shiftBalances_shiftBalances]
    refine shiftBalances_congr s.wallets fun i => ?_
    have h2 : ¬cur.walletId = d.walletId.getD cur.walletId := hrev.2
    by_cases hi : i = cur.walletId <;> by_cases hj : i = d.walletId.getD cur.walletId
    · exact absurd (hi.symm.trans hj) h2
    · simp [hi, hj, hrev.1, h2]
    · simp [hi, hj, hrev.1, h2]
    · simp [hi, hj]
  · rw [if_neg hrev, incrementBalance_eq_shiftBalances]
    refine shiftBalances_congr s.wallets fun i => ?_
    have hc : ¬(cur.isPaid = true ∧ ¬cur.walletId = d.walletId.getD cur.walletId ∧
        i = cur.walletId) := by tauto
    rw [if_neg hc, zero_add]

def sampleUnpaidTx : Transaction :=
  { samplePaidTx with id := 11, isPaid := false, paymentDate := none }

def storeC5 : Store :=
  { sampleStore with transactions := [sampleUnpaidTx] }

def inputC5 : UpdateTxInput :=
  { UpdateTxInput.none_ with amount := some 200, isPaid := some true }

/-- **C5 (counterexample).**  Entry 11 (unpaid, INCOME, amount 100, wallet 1, balance 0)
is updated with `isPaid = true` and a replacement amount 200 in the same request.  The
claim predicts the adjustment is computed from the pre-update amount (+100); the code
uses `data.amount || currentTransaction.amount` and credits +200. -/
theorem claim_C5_counterexample :
    ∃ s' out, updateTransaction 7 11 false inputC5 storeC5 = .ok (s', out) ∧
      s'.wallets = [{ id := 1, userId := 7, balance := 200 }] ∧
      ¬s'.wallets = [{ id := 1, userId := 7, balance := 100 }] := by
  refine ⟨_, _,
    updateTransaction_paidChange_ok 7 11 false inputC5 storeC5 sampleUnpaidTx true rfl
      (by intro wid h; simp only [inputC5, UpdateTxInput.none_] at h; cases h)
      (by intro cid h; simp only [inputC5, UpdateTxInput.none_] at h; cases h)
      rfl (by decide), ?_, ?_⟩
  · show incrementBalance _ _ _ = _
    norm_num [sampleUnpaidTx, samplePaidTx, inputC5, UpdateTxInput.none_, storeC5,
      sampleStore, sampleWallet, incrementBalance, signedAmount]
  · show ¬incrementBalance _ _ _ = _
    norm_num [sampleUnpaidTx, samplePaidTx, inputC5, UpdateTxInput.none_, storeC5,
      sampleStore, sampleWallet, incrementBalance, signedAmount]

/-- Witness for the amended C5 at the counterexample's concrete input: the adjustment
lands on wallet 1 with the request's amount 200. -/
theorem claim_C5_amended_reconciler_uses_request_values_witness :
    ∃ s' out, updateTransaction 7 11 false inputC5 storeC5 = .ok (s', out) ∧
      s'.wallets =
        shiftBalances storeC5.wallets fun i =>
          (if sampleUnpaidTx.isPaid = true ∧
              ¬sampleUnpaidTx.walletId = inputC5.walletId.getD sampleUnpaidTx.walletId ∧
              i = sampleUnpaidTx.walletId
            then -(signedAmount sampleUnpaidTx.type sampleUnpaidTx.amount) else 0) +
          (if i = inputC5.walletId.getD sampleUnpaidTx.walletId
            then
              (if true then
                signedAmount sampleUnpaidTx.type (inputC5.amount.getD sampleUnpaidTx.amount)
              else
                -(signedAmount sampleUnpaidTx.type
                  (inputC5.amount.getD sampleUnpaidTx.amount)))
            else 0) :=
  claim_C5_amended_reconciler_uses_request_values 7 11 false inputC5 storeC5
    sampleUnpaidTx true rfl rfl (by decide)
    (by intro wid h; simp only [inputC5, UpdateTxInput.none_] at h; cases h)
    (by intro cid h; simp only [inputC5, UpdateTxInput.none_] at h; cases h)

theorem deleteTransaction_byId_ok (u tid : Nat) (all : Bool) (s : Store)
    (t0 : Transaction)
    (hfind : Transaction.findFirst s.transactions tid u = some t0)
    (hwc : resolveWhere all t0 = .byId) :
    deleteTransaction u tid all s =
      .ok { s with
              wallets := revertPaidBalances s.wallets [t0]
              transactions := s.transactions.filter fun t => ¬t.id = tid } := by
  simp only [deleteTransaction, hfind, hwc]

theorem deleteTransaction_recGroup_ok (u tid : Nat) (all : Bool) (s : Store)
    (t0 : Transaction) (g : Nat)
    (hfind : Transaction.findFirst s.transactions tid u = some t0)
    (hwc : resolveWhere all t0 = .byRecurringGroup g) :
    deleteTransaction u tid all s =
      .ok { s with
              wallets := revertPaidBalances s.wallets
                (s.transactions.filter (matchesWhere u tid (.byRecurringGroup g)))
              transactions :=
                s.transactions.filter fun t =>
                  ¬matchesWhere u tid (.byRecurringGroup g) t = true } := by
  simp only [deleteTransaction, hfind, hwc]

theorem deleteTransaction_instGroup_ok (u tid : Nat) (all : Bool) (s : Store)
    (t0 : Transaction) (g : Nat)
    (hfind : Transaction.findFirst s.transactions tid u = some t0)
    (hwc : resolveWhere all t0 = .byInstallmentGroup g) :
    deleteTransaction u tid all s =
      .ok { s with
              wallets := revertPaidBalances s.wallets
                (s.transactions.filter (matchesWhere u tid (.byInstallmentGroup g)))
              transactions :=
                s.transactions.filter fun t =>
                  ¬matchesWhere u tid (.byInstallmentGroup g) t = true } := by
  simp only [deleteTransaction, hfind, hwc]

/-- **C8.**  Deleting with the whole-group flag, when the target belongs to a
recurrence or installment group, removes exactly the entries sharing that group id for
that user, and shifts every wallet's balance by the negated sum of the signed
contributions of the *paid* removed members (unpaid members contribute nothing). -/
theorem claim_C8_group_delete (u tid : Nat) (s : Store) (t0 : Transaction) (g : Nat)
    (hfind : Transaction.findFirst s.transactions tid u = some t0)
    (hwc : resolveWhere true t0 = .byRecurringGroup g ∨
      resolveWhere true t0 = .byInstallmentGroup g) :
    ∃ s', deleteTransaction u tid true s = .ok s' ∧
      s'.transactions =
        s.transactions.filter
          (fun t => ¬matchesWhere u tid (resolveWhere true t0) t = true) ∧
      s'.wallets =
        shiftBalances s.wallets fun i =>
          -(paidSum (s.transactions.filter (matchesWhere u tid (resolveWhere true t0))) i) := by
  rcases hwc with hwc | hwc
  · exact ⟨_, deleteTransaction_recGroup_ok u tid true s t0 g hfind hwc, by rw [hwc],
      by rw [hwc]; exact revertPaidBalances_eq_shiftBalances _ _⟩
  · exact ⟨_, deleteTransaction_instGroup_ok u tid true s t0 g hfind hwc, by rw [hwc],
      by rw [hwc]; exact revertPaidBalances_eq_shiftBalances _ _⟩

def groupMember (k : Nat) (paid : Bool) : Transaction :=
  { samplePaidTx with
      id := 20 + k
      amount := 10
      isPaid := paid
      isRecurring := true
      recurringType := some .MONTHLY
      recurringGroupId := some 50 }

def storeC8 : Store :=
  { sampleStore with
      wallets := [{ sampleWallet with balance := 20 }]
      transactions := [groupMember 0 true, groupMember 1 true, groupMember 2 false,
        groupMember 3 false, groupMember 4 false] }

/-- Witness for C8: a 5-member recurrence group with 2 paid members (the spec's
example scenario). -/
theorem claim_C8_group_delete_witness :
    ∃ s', deleteTransaction 7 20 true storeC8 = .ok s' ∧
      s'.transactions =
        storeC8.transactions.filter
          (fun t => ¬matchesWhere 7 20 (resolveWhere true (groupMember 0 true)) t = true) ∧
      s'.wallets =
        shiftBalances storeC8.wallets fun i =>
          -(paidSum
            (storeC8.transactions.filter
              (matchesWhere 7 20 (resolveWhere true (groupMember 0 true)))) i) :=
  claim_C8_group_delete 7 20 storeC8 (groupMember 0 true) 50 rfl (Or.inl rfl)

/-- **C9.**  Creating a paid singleton income entry and immediately deleting it
restores every wallet balance (in particular the target wallet's) to its pre-create
value, and also restores the entry table. -/
theorem claim_C9_create_delete_roundtrip (u : Nat) (d : CreateTxInput) (s : Store)
    (hw : (Wallet.findFirst s.wallets d.walletId u).isSome = true)
    (hc : ∃ c, Category.findFirst s.categories d.categoryId u = some c ∧ d.type = c.type)
    (hnr : d.isRecurring = false) (hni : d.isInstallment = false)
    (hpaid : d.isPaid = true) (hty : d.type = .INCOME)
    (hbound : ∀ t ∈ s.transactions, t.id < s.nextId) :
    ∃ s1 out s2, createTransaction u d s = .ok (s1, out) ∧
      deleteTransaction u s.nextId false s1 = .ok s2 ∧
      s2.wallets = s.wallets ∧ s2.transactions = s.transactions := by
  obtain ⟨w, hw'⟩ := Option.isSome_iff_exists.mp hw
  obtain ⟨c, hc', htyc⟩ := hc
  have h1 := createTransaction_single_ok u d s w c hw' hc' htyc hnr hni
  rw [hpaid, if_pos rfl] at h1
  set t := mkSingleTx u d s.nextId with ht
  set s1 : Store :=
    { s with
        wallets := incrementBalance s.wallets d.walletId (signedAmount d.type d.amount)
        transactions := s.transactions ++ [t]
        nextId := s.nextId + 1 } with hs1
  have hfind : Transaction.findFirst s1.transactions s.nextId u = some t := by
    show Transaction.findFirst (s.transactions ++ [t]) s.nextId u = some t
    unfold Transaction.findFirst
    rw [find?_append_right _ _ _ ?_]
    · have hid : t.id = s.nextId := rfl
      have huid : t.userId = u := rfl
      simp [List.find?_cons, hid, huid]
    · intro a ha
      have hlt := hbound a ha
      simp only [Bool.and_eq_true, beq_iff_eq, not_and]
      intro hne _
      exact absurd hne (Nat.ne_of_lt hlt)
  have h2 := deleteTransaction_byId_ok u s.nextId false s1 t hfind rfl
  refine ⟨s1, [t], _, h1, h2, ?_, ?_⟩
  · show revertPaidBalances s1.wallets [t] = s.wallets
    have hstep : revertPaidBalances s1.wallets [t] =
        incrementBalance s1.wallets t.walletId (-(signedAmount t.type t.amount)) := by
      have htp : t.isPaid = true := by
        show d.isPaid = true
        exact hpaid
      simp [revertPaidBalances, htp]
    rw [hstep]
    show incrementBalance (incrementBalance s.wallets d.walletId
      (signedAmount d.type d.amount)) t.walletId (-(signedAmount t.type t.amount)) = _
    have htw : t.walletId = d.walletId := rfl
    have htty : t.type = d.type := rfl
    have hta : t.amount = d.amount := rfl
    rw [htw, htty, hta, incrementBalance_eq_shiftBalances, incrementBalance_eq_shiftBalances,
      shiftBalances_shiftBalances]
    have hz : ∀ i, ((if i = d.walletId then signedAmount d.type d.amount else 0) +
        (if i = d.walletId then -(signedAmount d.type d.amount) else 0)) = (0 : ℚ) := by
      intro i
      by_cases hi : i = d.walletId <;> simp [hi]
    rw [shiftBalances_congr s.wallets hz, shiftBalances_zero]
  · show (s.transactions ++ [t]).filter (fun x => ¬x.id = s.nextId) = s.transactions
    rw [List.filter_append]
    have hall : s.transactions.filter (fun x => ¬x.id = s.nextId) = s.transactions := by
      refine List.filter_eq_self.mpr fun a ha => ?_
      have hlt := hbound a ha
      simp [Nat.ne_of_lt hlt]
    have hone : ([t].filter fun x => ¬x.id = s.nextId) = [] := by
      have hid : t.id = s.nextId := rfl
      simp [List.filter_cons, hid]
    rw [hall, hone, List.append_nil]

def sampleSingleInput : CreateTxInput :=
  { description := "gift"
    amount := 25
    type := .INCOME
    dueDate := SDate.mk 2025 2 10
    paymentDate := none
    isPaid := true
    isRecurring := false
    recurringType := none
    isInstallment := false
    installments := none
    notes := none
    walletId := 1
    categoryId := 2 }

/-- Witness for C9: create a paid income entry of 25 on the sample wallet and
immediately delete it. -/
theorem claim_C9_create_delete_roundtrip_witness :
    ∃ s1 out s2, createTransaction 7 sampleSingleInput sampleStore = .ok (s1, out) ∧
      deleteTransaction 7 sampleStore.nextId false s1 = .ok s2 ∧
      s2.wallets = sampleStore.wallets ∧ s2.transactions = sampleStore.transactions :=
  claim_C9_create_delete_roundtrip 7 sampleSingleInput sampleStore (by decide)
    ⟨sampleIncomeCat, by decide, rfl⟩ rfl rfl rfl rfl (by simp [sampleStore])

theorem findFirst_spec (ts : List Transaction) (tid u : Nat) (cur : Transaction)
    (h : Transaction.findFirst ts tid u = some cur) :
    cur ∈ ts ∧ cur.id = tid ∧ cur.userId = u := by
  unfold Transaction.findFirst at h
  have hp := List.find?_some h
  have hm := List.mem_of_find?_eq_some h
  simp only [Bool.and_eq_true, beq_iff_eq] at hp
  exact ⟨hm, hp.1, hp.2⟩

theorem resolveWhere_recGroup (t : Transaction) (g : Nat)
    (h : resolveWhere true t = .byRecurringGroup g) : t.recurringGroupId = some g := by
  unfold resolveWhere at h
  rw [if_pos rfl] at h
  cases hr : t.recurringGroupId with
  | some gid =>
    rw [hr] at h
    cases h
    rfl
  | none =>
    rw [hr] at h
    cases hi : t.installmentGroupId with
    | some gid => rw [hi] at h; cases h
    | none => rw [hi] at h; cases h

theorem resolveWhere_instGroup (t : Transaction) (g : Nat)
    (h : resolveWhere true t = .byInstallmentGroup g) :
    t.recurringGroupId = none ∧ t.installmentGroupId = some g := by
  unfold resolveWhere at h
  rw [if_pos rfl] at h
  cases hr : t.recurringGroupId with
  | some gid => rw [hr] at h; cases h
  | none =>
    rw [hr] at h
    cases hi : t.installmentGroupId with
    | some gid =>
      rw [hi] at h
      cases h
      exact ⟨rfl, rfl⟩
    | none => rw [hi] at h; cases h

theorem sum_map_neg {α : Type} (f : α → ℚ) :
    ∀ l : List α, (l.map fun x => -f x).sum = -((l.map f).sum) := by
  intro l
  induction l with
  | nil => simp
  | cons a l ih => simp [ih]; ring

/-- **C10.**  A whole-group update that toggles `isPaid` on a group of at least two
same-flag entries rewrites every member's flag to the new value, but adjusts the
balance only once, by the *targeted* entry's signed contribution applied to the
targeted entry's wallet — not by the sum of the members' signed contributions
(the two amounts provably differ when the members share a direction and have
positive amounts). -/
theorem claim_C10_group_update_single_adjustment (u tid : Nat) (s : Store)
    (cur : Transaction) (g : Nat) (p : Bool) (d : UpdateTxInput)
    (hd : d = { UpdateTxInput.none_ with isPaid := some p })
    (hfind : Transaction.findFirst s.transactions tid u = some cur)
    (hwc : resolveWhere true cur = .byRecurringGroup g ∨
      resolveWhere true cur = .byInstallmentGroup g)
    (hne : ¬p = cur.isPaid)
    (htype : ∀ t ∈ s.transactions.filter (matchesWhere u tid (resolveWhere true cur)),
      t.type = cur.type)
    (hpos : ∀ t ∈ s.transactions.filter (matchesWhere u tid (resolveWhere true cur)),
      0 < t.amount)
    (hlen : 2 ≤ (s.transactions.filter (matchesWhere u tid (resolveWhere true cur))).length) :
    ∃ s' out, updateTransaction u tid true d s = .ok (s', out) ∧
      s'.transactions =
        s.transactions.map (fun t =>
          if matchesWhere u tid (resolveWhere true cur) t then { t with isPaid := p }
          else t) ∧
      s'.wallets =
        shiftBalances s.wallets (fun i =>
          if i = cur.walletId then
            (if p then signedAmount cur.type cur.amount
            else -(signedAmount cur.type cur.amount))
          else 0) ∧
      (if p then signedAmount cur.type cur.amount
        else -(signedAmount cur.type cur.amount)) ≠
        (if p then
          ((s.transactions.filter (matchesWhere u tid (resolveWhere true cur))).map
            (fun t => signedAmount t.type t.amount)).sum
        else
          -(((s.transactions.filter (matchesWhere u tid (resolveWhere true cur))).map
            (fun t => signedAmount t.type t.amount)).sum)) := by
  subst hd
  obtain ⟨hcurmem, hcurid, hcuru⟩ := findFirst_spec s.transactions tid u cur hfind
  have hmem : cur ∈ s.transactions.filter (matchesWhere u tid (resolveWhere true cur)) := by
    refine List.mem_filter.mpr ⟨hcurmem, ?_⟩
    rcases hwc with hwc | hwc
    · have hg := resolveWhere_recGroup cur g hwc
      rw [hwc]
      simp [matchesWhere, hg, hcuru]
    · have hg := resolveWhere_instGroup cur g hwc
      rw [hwc]
      simp [matchesWhere, hg.2, hcuru]
  refine ⟨_, _,
    updateTransaction_paidChange_ok u tid true _ s cur p hfind
      (fun wid h => Option.noConfusion h) (fun cid h => Option.noConfusion h) rfl hne,
    ?_, ?_, ?_⟩
  · rcases hwc with hwc | hwc <;> simp only [hwc] <;> rfl
  · have hgd :
        (({ UpdateTxInput.none_ with
            isPaid := some p } : UpdateTxInput)).walletId.getD cur.walletId =
          cur.walletId := rfl
    have hga :
        (({ UpdateTxInput.none_ with
            isPaid := some p } : UpdateTxInput)).amount.getD cur.amount = cur.amount := rfl
    simp only [hgd, hga]
    rw [if_neg (by simp), incrementBalance_eq_shiftBalances]
  · set ms := s.transactions.filter (matchesWhere u tid (resolveWhere true cur)) with hms
    obtain ⟨l1, l2, hsplit⟩ := List.append_of_mem hmem
    have hrest : ∀ t ∈ l1 ++ l2, 0 < t.amount := by
      intro t htm
      apply hpos
      rw [hsplit]
      rcases List.mem_append.mp htm with h | h
      · exact List.mem_append.mpr (Or.inl h)
      · exact List.mem_append.mpr (Or.inr (List.mem_cons_of_mem _ h))
    have hrne : ¬(l1 ++ l2) = [] := by
      intro hemp
      have h0 : l1.length + l2.length = 0 := by
        rw [← List.length_append, hemp]
        rfl
      rw [hsplit] at hlen
      simp only [List.length_append, List.length_cons] at hlen
      omega
    have hsumrest : 0 < ((l1 ++ l2).map Transaction.amount).sum := by
      refine List.sum_pos _ ?_ ?_
      · intro x hx
        obtain ⟨t, htm, rfl⟩ := List.mem_map.mp hx
        exact hrest t htm
      · simpa using hrne
    have hkey : cur.amount < (ms.map Transaction.amount).sum := by
      rw [hsplit]
      simp only [List.map_append, List.map_cons, List.sum_append, List.sum_cons]
      simp only [List.map_append, List.sum_append] at hsumrest
      linarith
    have hsigned :
        (ms.map fun t => signedAmount t.type t.amount).sum =
          (if cur.type = TxType.INCOME then (ms.map Transaction.amount).sum
          else -((ms.map Transaction.amount).sum)) := by
      cases hct : cur.type with
      | INCOME =>
        rw [if_pos rfl]
        have : (ms.map fun t => signedAmount t.type t.amount) =
            ms.map Transaction.amount := by
          refine List.map_congr_left fun t htm => ?_
          rw [htype t (hms ▸ htm), hct]
          rfl
        rw [this]
      | EXPENSE =>
        rw [if_neg (by simp)]
        have : (ms.map fun t => signedAmount t.type t.amount) =
            ms.map fun t => -(t.amount) := by
          refine List.map_congr_left fun t htm => ?_
          rw [htype t (hms ▸ htm), hct]
          rfl
        rw [this, sum_map_neg Transaction.amount ms]
    have hkey2 : signedAmount cur.type cur.amount ≠
        (ms.map fun t => signedAmount t.type t.amount).sum := by
      rw [hsigned]
      cases hct : cur.type with
      | INCOME =>
        rw [if_pos rfl]
        show cur.amount ≠ _
        exact ne_of_lt hkey
      | EXPENSE =>
        rw [if_neg (by simp)]
        show -cur.amount ≠ _
        intro h
        exact absurd (neg_inj.mp h) (ne_of_lt hkey)
    cases p with
    | true =>
      rw [if_pos rfl, if_pos rfl]
      exact hkey2
    | false =>
      rw [if_neg (by simp), if_neg (by simp)]
      intro h
      exact hkey2 (neg_inj.mp h)

def memberC10 (k : Nat) : Transaction :=
  { samplePaidTx with
      id := 30 + k
      amount := 10
      isPaid := false
      isRecurring := true
      recurringType := some .MONTHLY
      recurringGroupId := some 60 }

def storeC10 : Store :=
  { sampleStore with transactions := [memberC10 0, memberC10 1] }

def inputC10 : UpdateTxInput := { UpdateTxInput.none_ with isPaid := some true }

/-- Witness for C10: paying a 2-member recurrence group (both unpaid, amount 10 each)
through a whole-group update flips both flags but credits only one member's amount. -/
theorem claim_C10_group_update_single_adjustment_witness :
    ∃ s' out, updateTransaction 7 30 true inputC10 storeC10 = .ok (s', out) ∧
      s'.transactions =
        storeC10.transactions.map (fun t =>
          if matchesWhere 7 30 (resolveWhere true (memberC10 0)) t then
            { t with isPaid := true }
          else t) ∧
      s'.wallets =
        shiftBalances storeC10.wallets (fun i =>
          if i = (memberC10 0).walletId then
            (if true then signedAmount (memberC10 0).type (memberC10 0).amount
            else -(signedAmount (memberC10 0).type (memberC10 0).amount))
          else 0) ∧
      (if true then signedAmount (memberC10 0).type (memberC10 0).amount
        else -(signedAmount (memberC10 0).type (memberC10 0).amount)) ≠
        (if true then
          ((storeC10.transactions.filter
            (matchesWhere 7 30 (resolveWhere true (memberC10 0)))).map
            (fun t => signedAmount t.type t.amount)).sum
        else
          -(((storeC10.transactions.filter
            (matchesWhere 7 30 (resolveWhere true (memberC10 0)))).map
            (fun t => signedAmount t.type t.amount)).sum)) := by
  refine claim_C10_group_update_single_adjustment 7 30 storeC10 (memberC10 0) 60 true
    inputC10 rfl rfl (Or.inl rfl) (by decide) (by decide) ?_ (by decide)
  intro t ht
  have hflt : storeC10.transactions.filter
      (matchesWhere 7 30 (resolveWhere true (memberC10 0))) =
      [memberC10 0, memberC10 1] := rfl
  rw [hflt] at ht
  simp only [List.mem_cons, List.not_mem_nil, or_false] at ht
  rcases ht with rfl | rfl <;> norm_num [memberC10, samplePaidTx]

/-- An empty ledger: wallets exist (with zero balance) but no entries and no
transfers have been recorded yet. -/
def InitialLedger (s : Store) : Prop :=
  (∀ w ∈ s.wallets, w.balance = 0) ∧ s.transactions = [] ∧ s.transfers = []

/-- One successful ledger operation (any of the six operations of the claims, on
zod-valid input).  A failed operation returns an error before mutating and therefore
produces no step. -/
inductive Step : Store → Store → Prop
  | create (u : Nat) (d : CreateTxInput) {s s' : Store} (out : List Transaction) :
      d.Valid → createTransaction u d s = .ok (s', out) → Step s s'
  | update (u tid : Nat) (updateAll : Bool) (d : UpdateTxInput) {s s' : Store}
      (out : List Transaction) :
      d.Valid → updateTransaction u tid updateAll d s = .ok (s', out) → Step s s'
  | delete (u tid : Nat) (deleteAll : Bool) {s s' : Store} :
      deleteTransaction u tid deleteAll s = .ok s' → Step s s'
  | pay (u tid : Nat) (pd : Option SDate) (now : SDate) {s s' : Store}
      (out : Transaction) :
      payTransaction u tid pd now s = .ok (s', out) → Step s s'
  | transferCreate (u : Nat) (d : CreateTransferInput) (now : SDate) {s s' : Store}
      (out : Transfer) :
      d.Valid → createTransfer u d now s = .ok (s', out) → Step s s'
  | transferDelete (u tid : Nat) {s s' : Store} :
      deleteTransfer u tid s = .ok s' → Step s s'

/-- States reachable from an empty ledger by any sequence of the six operations. -/
inductive Reachable : Store → Prop
  | init {s : Store} : InitialLedger s → Reachable s
  | step {s s' : Store} : Reachable s → Step s s' → Reachable s'

/-- The spec's wallet-balance invariant: every wallet's cached balance equals the sum
of the signed amounts of its paid entries plus the net of transfers touching it. -/
def BalanceInvariant (s : Store) : Prop :=
  ∀ w ∈ s.wallets, w.balance = paidSum s.transactions w.id + transferNet s.transfers w.id

def inputC1up : UpdateTxInput := { UpdateTxInput.none_ with amount := some 200 }

def txC1 : Transaction := mkSingleTx 7 sampleSingleInput 100

def s1C1 : Store :=
  { wallets := [{ id := 1, userId := 7, balance := 25 }]
    categories := sampleStore.categories
    transactions := [txC1]
    transfers := []
    nextId := 101 }

def s2C1 : Store :=
  { wallets := [{ id := 1, userId := 7, balance := 25 }]
    categories := sampleStore.categories
    transactions := [{ txC1 with amount := 200 }]
    transfers := []
    nextId := 101 }

/-- **C1 (counterexample).**  The invariant does not hold in every reachable state:
from an empty ledger, create a paid income entry of 25 (balance 25, invariant holds),
then update only its amount to 200 without touching `isPaid`.  The update path adjusts
no balance when the request carries no `isPaid`, so the wallet keeps 25 while its one
paid entry now contributes 200. -/
theorem claim_C1_counterexample :
    ¬(∀ s : Store, Reachable s → BalanceInvariant s) := by
  intro hall
  have hinit : InitialLedger sampleStore := by
    refine ⟨?_, rfl, rfl⟩
    intro w hw
    simp only [sampleStore, List.mem_singleton] at hw
    subst hw
    rfl
  have hvalid1 : sampleSingleInput.Valid := by
    constructor
    · norm_num [sampleSingleInput]
    · intro n hn
      simp [sampleSingleInput] at hn
  have h1 : createTransaction 7 sampleSingleInput sampleStore = .ok (s1C1, [txC1]) := by
    rw [createTransaction_single_ok 7 sampleSingleInput sampleStore sampleWallet
      sampleIncomeCat rfl rfl rfl rfl rfl]
    norm_num [s1C1, txC1, sampleStore, sampleWallet, sampleSingleInput, incrementBalance,
      signedAmount]
  have hvalid2 : inputC1up.Valid := by
    intro a ha
    simp only [inputC1up, UpdateTxInput.none_, Option.some.injEq] at ha
    subst ha
    norm_num
  have h2 : updateTransaction 7 100 false inputC1up s1C1 =
      .ok (s2C1, [{ txC1 with amount := 200 }]) := by
    rw [updateTransaction_noPaidChange_ok 7 100 false inputC1up s1C1 txC1 rfl
      (fun wid h => by simp [inputC1up, UpdateTxInput.none_] at h)
      (fun cid h => by simp [inputC1up, UpdateTxInput.none_] at h) rfl]
    norm_num [s1C1, s2C1, txC1, updateRows, resolveWhere, matchesWhere, applyUpdate,
      inputC1up, UpdateTxInput.none_, mkSingleTx, sampleSingleInput]
  have hr2 : Reachable s2C1 :=
    Reachable.step
      (Reachable.step (Reachable.init hinit)
        (Step.create 7 sampleSingleInput [txC1] hvalid1 h1))
      (Step.update 7 100 false inputC1up [{ txC1 with amount := 200 }] hvalid2 h2)
  have hninv : ¬BalanceInvariant s2C1 := by
    intro hinv
    have h := hinv { id := 1, userId := 7, balance := 25 } (by simp [s2C1])
    norm_num [s2C1, txC1, mkSingleTx, sampleSingleInput, paidSum, contribution,
      transferNet, signedAmount] at h
  exact hninv (hall s2C1 hr2)

/-- A successful ledger operation other than update (create, delete, pay, transfer
create, transfer delete). -/
inductive StepNoUpd : Store → Store → Prop
  | create (u : Nat) (d : CreateTxInput) {s s' : Store} (out : List Transaction) :
      d.Valid → createTransaction u d s = .ok (s', out) → StepNoUpd s s'
  | delete (u tid : Nat) (deleteAll : Bool) {s s' : Store} :
      deleteTransaction u tid deleteAll s = .ok s' → StepNoUpd s s'
  | pay (u tid : Nat) (pd : Option SDate) (now : SDate) {s s' : Store}
      (out : Transaction) :
      payTransaction u tid pd now s = .ok (s', out) → StepNoUpd s s'
  | transferCreate (u : Nat) (d : CreateTransferInput) (now : SDate) {s s' : Store}
      (out : Transfer) :
      d.Valid → createTransfer u d now s = .ok (s', out) → StepNoUpd s s'
  | transferDelete (u tid : Nat) {s s' : Store} :
      deleteTransfer u tid s = .ok s' → StepNoUpd s s'

/-- States reachable from an empty ledger without using the update operation. -/
inductive ReachableNoUpd : Store → Prop
  | init {s : Store} : InitialLedger s → ReachableNoUpd s
  | step {s s' : Store} : ReachableNoUpd s → StepNoUpd s s' → ReachableNoUpd s'

/-- Induction invariant: the balance invariant together with the bookkeeping facts
that generated row ids are unique and below the fresh-id counter (which the database's
unique-id generation guarantees for the source). -/
structure StoreOk (s : Store) : Prop where
  balance : BalanceInvariant s
  txBound : ∀ t ∈ s.transactions, t.id < s.nextId
  txNodup : (s.transactions.map Transaction.id).Nodup
  trBound : ∀ tr ∈ s.transfers, tr.id < s.nextId
  trNodup : (s.transfers.map Transfer.id).Nodup

theorem createRecurringList_unpaid (u : Nat) (d : CreateTxInput) (rt : RecurringType)
    (gid : Nat) (dates : List SDate) (nid : Nat) :
    ∀ t ∈ createRecurringList u d rt gid nid dates, t.isPaid = false := by
  intro t ht
  rw [createRecurringList_eq] at ht
  obtain ⟨k, _, rfl⟩ := List.mem_map.mp ht
  rfl

theorem createInstallmentList_unpaid (u : Nat) (d : CreateTxInput) (n : Nat)
    (gid : Nat) (dates : List SDate) (nid : Nat) (i0 : Nat) :
    ∀ t ∈ createInstallmentList u d n gid nid i0 dates, t.isPaid = false := by
  intro t ht
  rw [createInstallmentList_eq] at ht
  obtain ⟨k, _, rfl⟩ := List.mem_map.mp ht
  rfl

theorem createRecurringList_map_id (u : Nat) (d : CreateTxInput) (rt : RecurringType)
    (gid : Nat) (dates : List SDate) (nid : Nat) :
    (createRecurringList u d rt gid nid dates).map Transaction.id =
      (List.range dates.length).map fun k => nid + k := by
  rw [createRecurringList_eq, List.map_map]
  rfl

theorem createInstallmentList_map_id (u : Nat) (d : CreateTxInput) (n : Nat)
    (gid : Nat) (dates : List SDate) (nid : Nat) (i0 : Nat) :
    (createInstallmentList u d n gid nid i0 dates).map Transaction.id =
      (List.range dates.length).map fun k => nid + k := by
  rw [createInstallmentList_eq, List.map_map]
  rfl

theorem range_map_add_nodup (nid len : Nat) :
    ((List.range len).map fun k => nid + k).Nodup :=
  (List.nodup_range len).map fun a b h => Nat.add_left_cancel h

theorem mem_range_map_add (nid len : Nat) (x : Nat)
    (hx : x ∈ (List.range len).map fun k => nid + k) : nid ≤ x ∧ x < nid + len := by
  obtain ⟨k, hk, rfl⟩ := List.mem_map.mp hx
  rw [List.mem_range] at hk
  omega

theorem paidSum_of_unpaid_cons (L : List Transaction) (i : Nat)
    (h : ∀ t ∈ L, t.isPaid = false) : paidSum L i = 0 :=
  paidSum_eq_zero_of_unpaid L i h

theorem storeOk_appendSeries (s : Store) (hok : StoreOk s) (L : List Transaction)
    (len : Nat)
    (hunpaid : ∀ t ∈ L, t.isPaid = false)
    (hids : L.map Transaction.id = (List.range len).map fun k => s.nextId + 1 + k) :
    StoreOk { s with transactions := s.transactions ++ L, nextId := s.nextId + 1 + len } := by
  constructor
  · intro w hw
    show w.balance = paidSum (s.transactions ++ L) w.id + transferNet s.transfers w.id
    rw [paidSum_append, paidSum_eq_zero_of_unpaid L w.id hunpaid, add_zero]
    exact hok.balance w hw
  · intro t ht
    show t.id < s.nextId + 1 + len
    rcases List.mem_append.mp ht with hmem | hmem
    · have h1 := hok.txBound t hmem
      calc t.id < s.nextId := h1
        _ ≤ s.nextId + 1 + len := by
          rw [Nat.add_assoc]
          exact Nat.le_add_right _ _
    · have hin : t.id ∈ L.map Transaction.id := List.mem_map_of_mem _ hmem
      rw [hids] at hin
      have := mem_range_map_add (s.nextId + 1) len t.id hin
      calc t.id < s.nextId + 1 + len := this.2
        _ ≤ _ := Nat.le_refl _
  · show ((s.transactions ++ L).map Transaction.id).Nodup
    rw [List.map_append, List.nodup_append]
    refine ⟨hok.txNodup, ?_, ?_⟩
    · rw [hids]
      exact range_map_add_nodup _ _
    · intro a ha hb
      rw [hids] at hb
      have h1 : a < s.nextId := by
        obtain ⟨t, htm, rfl⟩ := List.mem_map.mp ha
        exact hok.txBound t htm
      have h2 := (mem_range_map_add (s.nextId + 1) len a hb).1
      exact absurd h1 (Nat.not_lt.mpr (Nat.le_trans (Nat.le_succ _) h2))
  · intro tr htr
    have h1 := hok.trBound tr htr
    calc tr.id < s.nextId := h1
      _ ≤ s.nextId + 1 + len := by
        rw [Nat.add_assoc]
        exact Nat.le_add_right _ _
  · exact hok.trNodup

theorem storeOk_single (s : Store) (hok : StoreOk s) (u : Nat) (d : CreateTxInput) :
    StoreOk { s with
      wallets :=
        if d.isPaid then
          incrementBalance s.wallets d.walletId (signedAmount d.type d.amount)
        else s.wallets
      transactions := s.transactions ++ [mkSingleTx u d s.nextId]
      nextId := s.nextId + 1 } := by
  have hsingle : ∀ i : Nat, paidSum [mkSingleTx u d s.nextId] i =
      if d.isPaid = true ∧ i = d.walletId then signedAmount d.type d.amount else 0 := by
    intro i
    by_cases hp : d.isPaid = true
    · by_cases hid : i = d.walletId
      · have hcond : (mkSingleTx u d s.nextId).walletId = i ∧
            (mkSingleTx u d s.nextId).isPaid = true := ⟨hid.symm, hp⟩
        simp [paidSum, contribution, hcond, mkSingleTx, hp, hid]
      · have hcond : ¬((mkSingleTx u d s.nextId).walletId = i ∧
            (mkSingleTx u d s.nextId).isPaid = true) := by
          intro hcc
          exact hid (hcc.1.symm)
        simp only [paidSum, List.map_cons, List.map_nil, List.sum_cons, List.sum_nil,
          contribution, if_neg hcond, add_zero]
        rw [if_neg (by intro hcc; exact hid hcc.2)]
    · have hcond : ¬((mkSingleTx u d s.nextId).walletId = i ∧
          (mkSingleTx u d s.nextId).isPaid = true) := by
        intro hcc
        exact hp hcc.2
      simp only [paidSum, List.map_cons, List.map_nil, List.sum_cons, List.sum_nil,
        contribution, if_neg hcond, add_zero]
      rw [if_neg (by intro hcc; exact hp hcc.1)]
  constructor
  · intro w hw
    show w.balance = paidSum (s.transactions ++ [mkSingleTx u d s.nextId]) w.id +
      transferNet s.transfers w.id
    rcases hp : d.isPaid with _ | _
    · rw [hp] at hw
      simp only [Bool.false_eq_true, if_false] at hw
      rw [paidSum_append, hsingle w.id, if_neg (by simp [hp]), add_zero]
      exact hok.balance w hw
    · rw [hp] at hw
      simp only [if_pos rfl] at hw
      rw [incrementBalance_eq_shiftBalances] at hw
      obtain ⟨w0, hw0, rfl⟩ := List.mem_map.mp hw
      show w0.balance + (if w0.id = d.walletId then signedAmount d.type d.amount else 0) =
        paidSum (s.transactions ++ [mkSingleTx u d s.nextId]) w0.id +
          transferNet s.transfers w0.id
      have hb := hok.balance w0 hw0
      rw [paidSum_append, hsingle w0.id, hb]
      by_cases hid : w0.id = d.walletId
      · rw [if_pos hid, if_pos ⟨hp, hid⟩]
        ring
      · rw [if_neg hid, if_neg (by intro hcc; exact hid hcc.2)]
        ring
  · intro t ht
    rcases List.mem_append.mp ht with hmem | hmem
    · exact Nat.lt_succ_of_lt (hok.txBound t hmem)
    · rw [List.mem_singleton] at hmem
      subst hmem
      exact Nat.lt_succ_self _
  · show ((s.transactions ++ [mkSingleTx u d s.nextId]).map Transaction.id).Nodup
    rw [List.map_append, List.nodup_append]
    refine ⟨hok.txNodup, by simp, ?_⟩
    intro a ha hb
    simp only [List.map_cons, List.map_nil, List.mem_singleton] at hb
    obtain ⟨t, htm, rfl⟩ := List.mem_map.mp ha
    have := hok.txBound t htm
    rw [show (mkSingleTx u d s.nextId).id = s.nextId from rfl] at hb
    exact absurd hb (Nat.ne_of_lt this)
  · intro tr htr
    exact Nat.lt_succ_of_lt (hok.trBound tr htr)
  · exact hok.trNodup

theorem createTransaction_preserves (u : Nat) (d : CreateTxInput) (s s' : Store)
    (out : List Transaction) (h : createTransaction u d s = .ok (s', out))
    (hok : StoreOk s) : StoreOk s' := by
  rcases hw : Wallet.findFirst s.wallets d.walletId u with _ | w
  · simp only [createTransaction, hw] at h
    cases h
  rcases hc : Category.findFirst s.categories d.categoryId u with _ | c
  · simp only [createTransaction, hw, hc] at h
    cases h
  by_cases h1 : d.type ≠ c.type
  · simp only [createTransaction, hw, hc, if_pos h1] at h
    cases h
  by_cases h2 : d.isRecurring = true ∧ d.recurringType = none
  · simp only [createTransaction, hw, hc, if_neg h1, if_pos h2] at h
    cases h
  by_cases h3 : d.isInstallment = true ∧ d.installments = none
  · simp only [createTransaction, hw, hc, if_neg h1, if_neg h2, if_pos h3] at h
    cases h
  by_cases h4 : d.isRecurring = true ∧ d.isInstallment = true
  · simp only [createTransaction, hw, hc, if_neg h1, if_neg h2, if_neg h3, if_pos h4] at h
    cases h
  have hty : d.type = c.type := not_not.mp h1
  rcases hri : d.isRecurring with _ | _
  · have hnr : d.isRecurring = false := hri
    rcases hii : d.isInstallment with _ | _
    · rw [createTransaction_single_ok u d s w c hw hc hty hnr hii] at h
      injection h with h'
      injection h' with hs ho
      subst hs
      exact storeOk_single s hok u d
    · rcases hin : d.installments with _ | n
      · exact absurd ⟨hii, hin⟩ h3
      · rw [createTransaction_installment_ok u d s w c n hw hc hty hnr hii hin] at h
        injection h with h'
        injection h' with hs ho
        subst hs
        exact storeOk_appendSeries s hok _ _
          (createInstallmentList_unpaid u d n s.nextId _ (s.nextId + 1) 0)
          (createInstallmentList_map_id u d n s.nextId _ (s.nextId + 1) 0)
  · rcases hrt : d.recurringType with _ | rt
    · exact absurd ⟨hri, hrt⟩ h2
    · have hni : d.isInstallment = false := by
        rcases hii : d.isInstallment with _ | _
        · rfl
        · exact absurd ⟨hri, hii⟩ h4
      rw [createTransaction_recurring_ok u d s w c rt hw hc hty hri hrt hni] at h
      injection h with h'
      injection h' with hs ho
      subst hs
      exact storeOk_appendSeries s hok _ _
        (createRecurringList_unpaid u d rt s.nextId _ (s.nextId + 1))
        (createRecurringList_map_id u d rt s.nextId _ (s.nextId + 1))

theorem payTransaction_preserves (u tid : Nat) (pd : Option SDate) (now : SDate)
    (s s' : Store) (out : Transaction)
    (h : payTransaction u tid pd now s = .ok (s', out)) (hok : StoreOk s) : StoreOk s' := by
  rcases hf : Transaction.findFirst s.transactions tid u with _ | t0
  · simp only [payTransaction, hf] at h
    cases h
  by_cases hp : t0.isPaid = true
  · simp only [payTransaction, hf, if_pos hp] at h
    cases h
  simp only [payTransaction, hf, if_neg hp] at h
  injection h with h'
  injection h' with hs ho
  subst hs
  obtain ⟨hmem, hid, _huid⟩ := findFirst_spec s.transactions tid u t0 hf
  have hpf : t0.isPaid = false := by
    cases hh : t0.isPaid
    · rfl
    · exact absurd hh hp
  have hfilter : (s.transactions.filter fun t => t.id == tid) = [t0] :=
    filter_key_singleton Transaction.id tid s.transactions t0 hok.txNodup hmem hid
  have hidpres : ∀ t : Transaction,
      (if t.id == tid then
        { t with isPaid := true, paymentDate := some (pd.getD now) }
      else t).id = t.id := by
    intro t
    by_cases hh : t.id = tid <;> simp [hh]
  have hids : ((s.transactions.map fun t =>
      if t.id == tid then { t with isPaid := true, paymentDate := some (pd.getD now) }
      else t).map Transaction.id) = s.transactions.map Transaction.id := by
    rw [List.map_map]
    exact List.map_congr_left fun t _ => hidpres t
  constructor
  · intro w hw
    rw [incrementBalance_eq_shiftBalances] at hw
    obtain ⟨w0, hw0, rfl⟩ := List.mem_map.mp hw
    have hb := hok.balance w0 hw0
    show w0.balance + (if w0.id = t0.walletId then signedAmount t0.type t0.amount else 0) =
      paidSum (s.transactions.map fun t =>
        if t.id == tid then { t with isPaid := true, paymentDate := some (pd.getD now) }
        else t) w0.id + transferNet s.transfers w0.id
    rw [paidSum_map_ite tid _ w0.id s.transactions, hfilter]
    simp only [List.map_cons, List.map_nil, List.sum_cons, List.sum_nil, add_zero]
    have hc0 : contribution w0.id t0 = 0 := by
      simp [contribution, hpf]
    have hcs : contribution w0.id
        ({ t0 with isPaid := true, paymentDate := some (pd.getD now) }) =
        if w0.id = t0.walletId then signedAmount t0.type t0.amount else 0 := by
      by_cases hwi : w0.id = t0.walletId
      · simp [contribution, hwi]
      · have hns : ¬t0.walletId = w0.id := fun hh => hwi hh.symm
        simp [contribution, hns, hwi]
    rw [hc0, hcs, hb]
    ring
  · intro t ht
    obtain ⟨t1, ht1, rfl⟩ := List.mem_map.mp ht
    show (if t1.id == tid then _ else t1).id < s.nextId
    rw [hidpres t1]
    exact hok.txBound t1 ht1
  · show ((s.transactions.map _).map Transaction.id).Nodup
    rw [hids]
    exact hok.txNodup
  · exact hok.trBound
  · exact hok.trNodup

theorem storeOk_deleteSet (s : Store) (hok : StoreOk s) (p : Transaction → Bool) :
    StoreOk { s with
      wallets := revertPaidBalances s.wallets (s.transactions.filter p)
      transactions := s.transactions.filter fun t => ¬p t = true } := by
  constructor
  · intro w hw
    rw [revertPaidBalances_eq_shiftBalances] at hw
    obtain ⟨w0, hw0, rfl⟩ := List.mem_map.mp hw
    show w0.balance + -(paidSum (s.transactions.filter p) w0.id) =
      paidSum (s.transactions.filter fun t => ¬p t = true) w0.id +
        transferNet s.transfers w0.id
    rw [paidSum_filter_not, hok.balance w0 hw0]
    ring
  · intro t ht
    exact hok.txBound t (List.mem_of_mem_filter ht)
  · exact List.Nodup.sublist ((List.filter_sublist _).map Transaction.id) hok.txNodup
  · exact hok.trBound
  · exact hok.trNodup

theorem deleteTransaction_preserves (u tid : Nat) (all : Bool) (s s' : Store)
    (h : deleteTransaction u tid all s = .ok s') (hok : StoreOk s) : StoreOk s' := by
  rcases hf : Transaction.findFirst s.transactions tid u with _ | t0
  · simp only [deleteTransaction, hf] at h
    cases h
  obtain ⟨hmem, hid, _huid⟩ := findFirst_spec s.transactions tid u t0 hf
  rcases hwc : resolveWhere all t0 with _ | g | g
  · rw [deleteTransaction_byId_ok u tid all s t0 hf hwc] at h
    injection h with hs
    subst hs
    have hfilter : (s.transactions.filter fun t => t.id == tid) = [t0] :=
      filter_key_singleton Transaction.id tid s.transactions t0 hok.txNodup hmem hid
    have hconv : (s.transactions.filter fun t => ¬t.id = tid) =
        s.transactions.filter fun t => ¬(t.id == tid) = true := by
      refine List.filter_congr fun t _ => ?_
      by_cases hh : t.id = tid <;> simp [hh]
    rw [hconv, ← hfilter]
    exact storeOk_deleteSet s hok fun t => t.id == tid
  · rw [deleteTransaction_recGroup_ok u tid all s t0 g hf hwc] at h
    injection h with hs
    subst hs
    exact storeOk_deleteSet s hok (matchesWhere u tid (.byRecurringGroup g))
  · rw [deleteTransaction_instGroup_ok u tid all s t0 g hf hwc] at h
    injection h with hs
    subst hs
    exact storeOk_deleteSet s hok (matchesWhere u tid (.byInstallmentGroup g))

theorem transferFindFirst_spec (ts : List Transfer) (tid u : Nat) (tr0 : Transfer)
    (h : Transfer.findFirst ts tid u = some tr0) :
    tr0 ∈ ts ∧ tr0.id = tid ∧ tr0.userId = u := by
  unfold Transfer.findFirst at h
  have hp := List.find?_some h
  have hm := List.mem_of_find?_eq_some h
  simp only [Bool.and_eq_true, beq_iff_eq] at hp
  exact ⟨hm, hp.1, hp.2⟩

theorem createTransfer_preserves (u : Nat) (d : CreateTransferInput) (now : SDate)
    (s s' : Store) (out : Transfer)
    (h : createTransfer u d now s = .ok (s', out)) (hok : StoreOk s) : StoreOk s' := by
  by_cases he : d.fromWalletId = d.toWalletId
  · simp only [createTransfer, if_pos he] at h
    cases h
  rcases hfw : Wallet.findFirst s.wallets d.fromWalletId u with _ | fw
  · simp only [createTransfer, if_neg he, hfw] at h
    cases h
  rcases htw : Wallet.findFirst s.wallets d.toWalletId u with _ | tw
  · simp only [createTransfer, if_neg he, hfw, htw] at h
    cases h
  by_cases hlt : fw.balance < d.amount
  · simp only [createTransfer, if_neg he, hfw, htw, if_pos hlt] at h
    cases h
  simp only [createTransfer, if_neg he, hfw, htw, if_neg hlt] at h
  injection h with h'
  injection h' with hs ho
  subst hs
  constructor
  · intro w hw
    rw [incrementBalance_eq_shiftBalances, incrementBalance_eq_shiftBalances,
      shiftBalances_shiftBalances] at hw
    obtain ⟨w0, hw0, rfl⟩ := List.mem_map.mp hw
    show w0.balance + ((if w0.id = d.fromWalletId then -d.amount else 0) +
        (if w0.id = d.toWalletId then d.amount else 0)) =
      paidSum s.transactions w0.id +
        transferNet (s.transfers ++
          [{ id := s.nextId, amount := d.amount, description := d.description,
             date := d.date.getD now, fromWalletId := d.fromWalletId,
             toWalletId := d.toWalletId, userId := u }]) w0.id
    rw [transferNet_append, hok.balance w0 hw0]
    have hone : transferNet
        [{ id := s.nextId, amount := d.amount, description := d.description,
           date := d.date.getD now, fromWalletId := d.fromWalletId,
           toWalletId := d.toWalletId, userId := u }] w0.id =
        (if d.toWalletId = w0.id then d.amount else 0) -
          (if d.fromWalletId = w0.id then d.amount else 0) := by
      simp [transferNet, transferDelta]
    rw [hone]
    by_cases h1 : w0.id = d.fromWalletId <;> by_cases h2 : w0.id = d.toWalletId
    · exact absurd (h1.symm.trans h2) he
    · rw [if_pos h1, if_neg h2, if_neg (fun hh => h2 hh.symm), if_pos h1.symm]
      ring
    · rw [if_neg h1, if_pos h2, if_pos h2.symm, if_neg (fun hh => h1 hh.symm)]
      ring
    · rw [if_neg h1, if_neg h2, if_neg (fun hh => h2 hh.symm),
        if_neg (fun hh => h1 hh.symm)]
      ring
  · intro t ht
    exact Nat.lt_succ_of_lt (hok.txBound t ht)
  · exact hok.txNodup
  · intro tr htr
    rcases List.mem_append.mp htr with hmem | hmem
    · exact Nat.lt_succ_of_lt (hok.trBound tr hmem)
    · rw [List.mem_singleton] at hmem
      subst hmem
      exact Nat.lt_succ_self _
  · show ((s.transfers ++ [_]).map Transfer.id).Nodup
    rw [List.map_append, List.nodup_append]
    refine ⟨hok.trNodup, by simp, ?_⟩
    intro a ha hb
    simp only [List.map_cons, List.map_nil, List.mem_singleton] at hb
    obtain ⟨tr, htm, rfl⟩ := List.mem_map.mp ha
    have hlt2 := hok.trBound tr htm
    have hb2 : tr.id = s.nextId := hb
    exact absurd hb2 (Nat.ne_of_lt hlt2)

theorem deleteTransfer_preserves (u tid : Nat) (s s' : Store)
    (h : deleteTransfer u tid s = .ok s') (hok : StoreOk s) : StoreOk s' := by
  rcases hf : Transfer.findFirst s.transfers tid u with _ | tr0
  · simp only [deleteTransfer, hf] at h
    cases h
  simp only [deleteTransfer, hf] at h
  injection h with hs
  subst hs
  obtain ⟨hmem, hid, _huid⟩ := transferFindFirst_spec s.transfers tid u tr0 hf
  have hfilter : (s.transfers.filter fun tr => tr.id == tid) = [tr0] :=
    filter_key_singleton Transfer.id tid s.transfers tr0 hok.trNodup hmem hid
  have hconv : (s.transfers.filter fun tr => ¬tr.id = tid) =
      s.transfers.filter fun tr => ¬(tr.id == tid) = true := by
    refine List.filter_congr fun tr _ => ?_
    by_cases hh : tr.id = tid <;> simp [hh]
  constructor
  · intro w hw
    rw [incrementBalance_eq_shiftBalances, incrementBalance_eq_shiftBalances,
      shiftBalances_shiftBalances] at hw
    obtain ⟨w0, hw0, rfl⟩ := List.mem_map.mp hw
    show w0.balance + ((if w0.id = tr0.fromWalletId then tr0.amount else 0) +
        (if w0.id = tr0.toWalletId then -tr0.amount else 0)) =
      paidSum s.transactions w0.id +
        transferNet (s.transfers.filter fun tr => ¬tr.id = tid) w0.id
    rw [hconv, transferNet_filter_not, hfilter, hok.balance w0 hw0]
    have hone : transferNet [tr0] w0.id =
        (if tr0.toWalletId = w0.id then tr0.amount else 0) -
          (if tr0.fromWalletId = w0.id then tr0.amount else 0) := by
      simp [transferNet, transferDelta]
    rw [hone]
    by_cases h1 : w0.id = tr0.fromWalletId <;> by_cases h2 : w0.id = tr0.toWalletId
    · rw [if_pos h1, if_pos h2, if_pos h2.symm, if_pos h1.symm]
      ring
    · rw [if_pos h1, if_neg h2, if_neg (fun hh => h2 hh.symm), if_pos h1.symm]
      ring
    · rw [if_neg h1, if_pos h2, if_pos h2.symm, if_neg (fun hh => h1 hh.symm)]
      ring
    · rw [if_neg h1, if_neg h2, if_neg (fun hh => h2 hh.symm),
        if_neg (fun hh => h1 hh.symm)]
      ring
  · exact hok.txBound
  · exact hok.txNodup
  · intro tr htr
    exact hok.trBound tr (List.mem_of_mem_filter htr)
  · exact List.Nodup.sublist ((List.filter_sublist _).map Transfer.id) hok.trNodup

/-- **C1 (amended).**  The wallet-balance invariant — every wallet's cached balance
equals the sum of the signed amounts of its paid entries plus the net of transfers
into minus out of it — holds in every state reachable from an empty ledger by any
sequence of create, delete, pay, createTransfer and deleteTransfer operations.
(The update operation is excluded: as `claim_C1_counterexample` shows, it can break
the invariant.) -/
theorem claim_C1_amended_invariant_without_update :
    ∀ s : Store, ReachableNoUpd s → BalanceInvariant s := by
  have key : ∀ s : Store, ReachableNoUpd s → StoreOk s := by
    intro s hreach
    induction hreach with
    | init hinit =>
      constructor
      · intro w hw
        rw [hinit.2.1, hinit.2.2]
        simp [paidSum, transferNet, hinit.1 w hw]
      · intro t ht
        rw [hinit.2.1] at ht
        cases ht
      · rw [hinit.2.1]
        simp
      · intro tr htr
        rw [hinit.2.2] at htr
        cases htr
      · rw [hinit.2.2]
        simp
    | step _ hstep ih =>
      cases hstep with
      | create u d out hv h => exact createTransaction_preserves u d _ _ out h ih
      | delete u tid deleteAll h => exact deleteTransaction_preserves u tid deleteAll _ _ h ih
      | pay u tid pd now out h => exact payTransaction_preserves u tid pd now _ _ out h ih
      | transferCreate u d now out hv h =>
        exact createTransfer_preserves u d now _ _ out h ih
      | transferDelete u tid h => exact deleteTransfer_preserves u tid _ _ h ih
  exact fun s h => (key s h).balance

/-- Witness for the amended C1: the invariant holds in the state reached by creating a
paid income entry of 25 on the zero-balance sample wallet (balance 25 = 25 + 0). -/
theorem claim_C1_amended_invariant_without_update_witness :
    BalanceInvariant s1C1 := by
  refine claim_C1_amended_invariant_without_update s1C1
    (ReachableNoUpd.step (@ReachableNoUpd.init sampleStore ?_)
      (@StepNoUpd.create 7 sampleSingleInput sampleStore s1C1 [txC1] ?_ ?_))
  · refine ⟨?_, rfl, rfl⟩
    intro w hw
    simp only [sampleStore, List.mem_singleton] at hw
    subst hw
    rfl
  · constructor
    · norm_num [sampleSingleInput]
    · intro n hn
      simp [sampleSingleInput] at hn
  · rw [createTransaction_single_ok 7 sampleSingleInput sampleStore sampleWallet
      sampleIncomeCat rfl rfl rfl rfl rfl]
    norm_num [s1C1, txC1, sampleStore, sampleWallet, sampleSingleInput, incrementBalance,
      signedAmount]
